import Mathlib

/-
Verification development for the Boston crime dashboard data pipeline
(`src/app.py`, function `load_data`).  The pandas dataframe pipeline is
shallowly embedded: a table is a list of rows, a row an association list
from column names to cell values.  Cell values model the pandas scalar
kinds reachable in this program: missing data (NaN/NaT), integers,
booleans, UTC wall-clock timestamps (with a tz-awareness flag), strings,
and opaque non-primitive objects carrying their textual rendering.

Modelling restrictions (stated once here): timestamps are parsed from the
formats occurring in this data, `YYYY-MM-DD HH:MM:SS` with an optional
`T` separator and an optional zero UTC offset (`+00` / `+00:00`); numeric
strings are modelled as integers (no floats); missing data is modelled
uniformly as the pandas NaN/NaT marker, whose `astype(str)` rendering is
"nan"; day-of-month validation is the range check 1..31.
-/

namespace BostonCrime

/-- Calendar timestamp (UTC wall clock) as carried by the pipeline. -/
structure Timestamp where
  year : Nat
  month : Nat
  day : Nat
  hour : Nat
  minute : Nat
  second : Nat
deriving DecidableEq, Repr

/-- Strict lexicographic order on timestamps, modelling pandas `Timestamp`
comparison. -/
def tsLtB (a b : Timestamp) : Bool :=
  a.year < b.year || (a.year == b.year && (a.month < b.month || (a.month == b.month &&
    (a.day < b.day || (a.day == b.day && (a.hour < b.hour || (a.hour == b.hour &&
      (a.minute < b.minute || (a.minute == b.minute && a.second < b.second)))))))))

/-- Field ranges enforced by the timestamp parser (`pd.to_datetime` rejects
out-of-range fields; unparsable values are coerced to null). -/
def tsValid (t : Timestamp) : Bool :=
  t.year ≤ 9999 && 1 ≤ t.month && t.month ≤ 12 && 1 ≤ t.day && t.day ≤ 31 &&
  t.hour ≤ 23 && t.minute ≤ 59 && t.second ≤ 59

/-- A dataframe cell. `null` is the missing-data marker (NaN/NaT), `time`
carries a tz-awareness flag, `obj` is a non-primitive value together with
its Python `str()` rendering. -/
inductive Value where
  | null
  | int (n : Int)
  | bool (b : Bool)
  | time (t : Timestamp) (aware : Bool)
  | str (s : String)
  | obj (r : String)
deriving DecidableEq, Repr

/-- Whitespace as stripped by Python `str.strip()` / pandas `.str.strip()`. -/
def wsChar (c : Char) : Bool := c == ' ' || c == '\t' || c == '\n' || c == '\r'

/-- ASCII decimal digit test. -/
def isDigitC (c : Char) : Bool := 48 ≤ c.toNat && c.toNat ≤ 57

/-- The character of a decimal digit. -/
def digitChar (d : Nat) : Char := Char.ofNat (48 + d)

/-- The value of a decimal digit character. -/
def digitVal (c : Char) : Nat := c.toNat - 48

/-- Strip whitespace from both ends (Python `str.strip()`). -/
def trimChars (cs : List Char) : List Char :=
  ((cs.dropWhile wsChar).reverse.dropWhile wsChar).reverse

/-- `str.strip()` on strings. -/
def trimStr (s : String) : String := ⟨trimChars s.data⟩

/-- ASCII upper-casing of one character (`str.upper()` on the characters
occurring in this data). -/
def upperChar (c : Char) : Char :=
  if 97 ≤ c.toNat && c.toNat ≤ 122 then Char.ofNat (c.toNat - 32) else c

/-- `str.upper()` on strings. -/
def upperStr (s : String) : String := ⟨s.data.map upperChar⟩

/-- Column-name standardisation `df.columns.str.strip().str.upper()`
(line 52 / line 116 of `src/app.py`). -/
def normName (s : String) : String := upperStr (trimStr s)

/-- Decimal digits of a natural number, most significant first
(fuelled so that it computes by kernel reduction). -/
def natToCharsAux : Nat → Nat → List Char
  | 0, _ => []
  | fuel + 1, n =>
    if n < 10 then [digitChar n]
    else natToCharsAux fuel (n / 10) ++ [digitChar (n % 10)]

/-- Decimal rendering of a natural number. -/
def natToChars (n : Nat) : List Char := natToCharsAux (n + 1) n

/-- Python `str()` of an integer. -/
def intToStr (n : Int) : String :=
  if n < 0 then ⟨'-' :: natToChars n.natAbs⟩ else ⟨natToChars n.natAbs⟩

/-- Two-digit zero-padded rendering (for months, days, hours, ...). -/
def pad2 (n : Nat) : List Char := [digitChar (n / 10), digitChar (n % 10)]

/-- Four-digit zero-padded rendering (for years). -/
def pad4 (n : Nat) : List Char :=
  [digitChar (n / 1000), digitChar (n / 100 % 10), digitChar (n / 10 % 10), digitChar (n % 10)]

/-- The characters of `str(pd.Timestamp)` without the offset part:
`YYYY-MM-DD HH:MM:SS`. -/
def renderTsChars (t : Timestamp) : List Char :=
  pad4 t.year ++ '-' :: (pad2 t.month ++ '-' :: (pad2 t.day ++ ' ' ::
    (pad2 t.hour ++ ':' :: (pad2 t.minute ++ ':' :: pad2 t.second))))

/-- `str(pd.Timestamp)`: a UTC-aware timestamp renders with a trailing
`+00:00`, a naive one without. -/
def renderTs (t : Timestamp) (aware : Bool) : String :=
  ⟨renderTsChars t ++ (if aware then ['+', '0', '0', ':', '0', '0'] else [])⟩

/-- Python `str()` of a cell, as produced by `.astype(str)`.  NaN renders
as "nan". -/
def pyStr : Value → String
  | .null => "nan"
  | .int n => intToStr n
  | .bool b => if b then "True" else "False"
  | .time t a => renderTs t a
  | .str s => s
  | .obj r => r

/-- Parse a nonempty all-digit character list as a natural number. -/
def parseNatChars (cs : List Char) : Option Nat :=
  if cs ≠ [] && cs.all isDigitC then
    some (cs.foldl (fun a c => a * 10 + digitVal c) 0)
  else none

/-- Python `int()` on a string: strips whitespace, optional minus sign,
decimal digits; anything else raises (modelled as `none`). -/
def parseIntPy (s : String) : Option Int :=
  match trimChars s.data with
  | '-' :: rest => (parseNatChars rest).map (fun m => -(Int.ofNat m))
  | cs => (parseNatChars cs).map Int.ofNat

/-- Assemble a timestamp from its digit characters. -/
def tsOfDigits (y3 y2 y1 y0 m1 m0 d1 d0 h1 h0 n1 n0 s1 s0 : Char) : Timestamp :=
  ⟨digitVal y3 * 1000 + digitVal y2 * 100 + digitVal y1 * 10 + digitVal y0,
   digitVal m1 * 10 + digitVal m0,
   digitVal d1 * 10 + digitVal d0,
   digitVal h1 * 10 + digitVal h0,
   digitVal n1 * 10 + digitVal n0,
   digitVal s1 * 10 + digitVal s0⟩

/-- Parse the 19-character core `YYYY-MM-DD HH:MM:SS` (or with a `T`
separator), validating field ranges. -/
def parseTsCore : List Char → Option Timestamp
  | [y3, y2, y1, y0, '-', m1, m0, '-', d1, d0, sep, h1, h0, ':', n1, n0, ':', s1, s0] =>
    if (sep == ' ' || sep == 'T') &&
        ([y3, y2, y1, y0, m1, m0, d1, d0, h1, h0, n1, n0, s1, s0].all isDigitC) then
      if tsValid (tsOfDigits y3 y2 y1 y0 m1 m0 d1 d0 h1 h0 n1 n0 s1 s0) then
        some (tsOfDigits y3 y2 y1 y0 m1 m0 d1 d0 h1 h0 n1 n0 s1 s0)
      else none
    else none
  | _ => none

/-- Split a trailing zero UTC offset (`+00:00` or `+00`) off a timestamp
string; the boolean records whether an offset was present. -/
def splitOffset (cs : List Char) : List Char × Bool :=
  if ['+', '0', '0', ':', '0', '0'].isSuffixOf cs then (cs.take (cs.length - 6), true)
  else if ['+', '0', '0'].isSuffixOf cs then (cs.take (cs.length - 3), true)
  else (cs, false)

/-- Parse a timestamp string; the boolean records whether the string
carried an explicit (zero) UTC offset. -/
def parseTsStr (s : String) : Option (Timestamp × Bool) :=
  (parseTsCore (splitOffset s.data).1).map (fun t => (t, (splitOffset s.data).2))

/-- The regex replacement `.str.replace(r"\+00(:00)?", "", regex=True)`
(line 74): every occurrence of `+00:00` (greedy) or `+00` is removed. -/
def stripPlus00 : List Char → List Char
  | '+' :: '0' :: '0' :: ':' :: '0' :: '0' :: rest => stripPlus00 rest
  | '+' :: '0' :: '0' :: rest => stripPlus00 rest
  | c :: rest => c :: stripPlus00 rest
  | [] => []

/-- One cell of `pd.to_datetime(col, errors="coerce", utc=utc)`: strings
are parsed (unparsable to null); with `utc := true` the result is always
UTC-aware, otherwise it is aware only if the string carried an offset;
datetimes pass through (localised when `utc`); other values coerce to
null. -/
def pyToDatetimeCell (utc : Bool) : Value → Value
  | .str s =>
    match parseTsStr s with
    | some (t, off) => .time t (utc || off)
    | none => .null
  | .time t a => .time t (utc || a)
  | _ => .null

/-- The historical timestamp normalisation of lines 71-83: `astype(str)`,
remove `+00`/`+00:00` occurrences, `strip()`, then
`to_datetime(errors="coerce", utc=True)`. -/
def histTsCell (v : Value) : Value :=
  pyToDatetimeCell true (.str (trimStr ⟨stripPlus00 (pyStr v).data⟩))

/-- `.dt.year` (null on NaT). -/
def dtYear : Value → Value
  | .time t _ => .int (t.year : Int)
  | _ => .null

/-- `.dt.month` (null on NaT). -/
def dtMonth : Value → Value
  | .time t _ => .int (t.month : Int)
  | _ => .null

/-- One cell of `pd.to_numeric(col, errors="coerce")`: numbers pass
through, numeric strings are parsed, everything else coerces to null. -/
def pyToNumericCell : Value → Value
  | .int n => .int n
  | .bool b => .int (if b then 1 else 0)
  | .str s =>
    match parseIntPy s with
    | some n => .int n
    | none => .null
  | _ => .null

/-- The `.replace({"Y": "1", "N": "0", "": "0", "nan": "0"})` mapping
applied to an (already stripped) string; unmapped values pass through. -/
def shootingMap (s : String) : String :=
  if s == "Y" then "1"
  else if s == "N" then "0"
  else if s == "" then "0"
  else if s == "nan" then "0"
  else s

/-- One cell of the shooting-column normalisation (lines 95-102 /
127-134): `astype(str)`, `strip()`, the replacement mapping, `fillna`
(a no-op after `astype(str)`), then `astype(int)`; `none` models the
`ValueError` raised by `int()` on a non-numeric unmapped value. -/
def shootingCell (v : Value) : Option Value :=
  (parseIntPy (shootingMap (trimStr (pyStr v)))).map (fun n => .int n)

/-- One cell of `astype("Int64")` (line 91): integers and nulls pass
through, booleans convert, anything else raises. -/
def asTypeInt64Cell : Value → Option Value
  | .int n => some (.int n)
  | .null => some .null
  | .bool b => some (.int (if b then 1 else 0))
  | _ => none

/-- A dataframe row: an association list from column names to cells
(first occurrence wins). -/
abbrev Row := List (String × Value)

/-- A dataframe: a list of rows.  A column "exists" when some row carries
its key; rows missing the key hold the NaN filler, matching pandas
column alignment. -/
abbrev Table := List Row

/-- Read a cell; a missing key is the NaN filler. -/
def rowGet : Row → String → Value
  | [], _ => .null
  | (k', v) :: r, k => if k' = k then v else rowGet r k

/-- Does the row carry the key? -/
def rowHas : Row → String → Bool
  | [], _ => false
  | (k', _) :: r, k => k' = k || rowHas r k

/-- Write a cell: replace the first occurrence in place, or append the
column at the end (pandas adds new columns at the end). -/
def rowSet : Row → String → Value → Row
  | [], k, v => [(k, v)]
  | (k', v') :: r, k, v => if k' = k then (k, v) :: r else (k', v') :: rowSet r k v

/-- Does the column exist in the table? -/
def hasCol (t : Table) (k : String) : Bool := t.any (fun r => rowHas r k)

/-- The cells of a column, with NaN fillers for rows missing it. -/
def colCells (t : Table) (k : String) : List Value := t.map (fun r => rowGet r k)

/-- `df[k] = f(df[k])`: reading a missing column raises `KeyError`
(`none`); otherwise the column is transformed cell-wise. -/
def applyColReq (k : String) (f : Value → Value) (t : Table) : Option Table :=
  if hasCol t k then some (t.map fun r => rowSet r k (f (rowGet r k))) else none

/-- Like `applyColReq` for a cell transform that can itself raise
(e.g. `astype(int)`); any raising cell aborts the whole column. -/
def applyColOptReq (k : String) (f : Value → Option Value) (t : Table) : Option Table :=
  if hasCol t k then t.mapM (fun r => (f (rowGet r k)).map (fun v => rowSet r k v))
  else none

/-- `df[dst] = f(df[src])`: reading a missing source column raises. -/
def deriveCol (src dst : String) (f : Value → Value) (t : Table) : Option Table :=
  if hasCol t src then some (t.map fun r => rowSet r dst (f (rowGet r src))) else none

/-- `df[k] = v` with a constant. -/
def setColConst (k : String) (v : Value) (t : Table) : Table :=
  t.map fun r => rowSet r k v

/-- Rename the columns of one row by `normName`. -/
def renameRow (r : Row) : Row := r.map (fun p => (normName p.1, p.2))

/-- `df.columns = df.columns.str.strip().str.upper()`. -/
def renameCols (t : Table) : Table := t.map renameRow

/-- `pd.concat(dfs, ignore_index=True)`: rows in input order; column
alignment is emergent from the NaN filler of `rowGet`. -/
def joinTables (ts : List Table) : Table := ts.flatMap id

/-- Lines 93-105 / 127-134: the shooting-flag normalisation step.  On the
historical path a missing column is guarded (`if "SHOOTING" in df.columns`)
and becomes the constant 0; the live path calls this with the column
required (see `liveNormalize`). -/
def shootingStep (t : Table) : Option Table :=
  if hasCol t "SHOOTING" then applyColOptReq "SHOOTING" shootingCell t
  else pure (setColConst "SHOOTING" (.int 0) t)

/-- Lines 71-105 applied to the concatenated historical baseline:
timestamp normalisation, YEAR/MONTH derivation, HOUR numeric coercion,
YEAR as nullable integer, shooting-flag normalisation (constant 0 when
the column is missing).  `none` models an uncaught exception. -/
def normalizeHistCore (df : Table) : Option Table := do
  let t1 ← applyColReq "OCCURRED_ON_DATE" histTsCell df
  let t2 ← deriveCol "OCCURRED_ON_DATE" "YEAR" dtYear t1
  let t3 ← deriveCol "OCCURRED_ON_DATE" "MONTH" dtMonth t2
  let t4 ← applyColReq "HOUR" pyToNumericCell t3
  let t5 ← applyColOptReq "YEAR" asTypeInt64Cell t4
  shootingStep t5

/-- Is the cell non-primitive for pandas dtype purposes (a string or an
object)?  A column holding any such cell has dtype `object`. -/
def isObjVal : Value → Bool
  | .str _ => true
  | .obj _ => true
  | _ => false

/-- Does column `k` of `t` have dtype `object`? -/
def isObjCol (t : Table) (k : String) : Bool := (colCells t k).any isObjVal

/-- Every key appearing in the table (with duplicates; harmless). -/
def allKeys (t : Table) : List String := t.flatMap (fun r => r.map Prod.fst)

/-- `df.select_dtypes(include=["object"]).columns`. -/
def objColumns (t : Table) : List String := (allKeys t).filter (fun k => isObjCol t k)

/-- Stringify the given columns of one row (`.astype(str)` cell by cell;
a NaN filler becomes the string "nan"). -/
def stringifyRow (cols : List String) (r : Row) : Row :=
  cols.foldl (fun acc k => rowSet acc k (.str (pyStr (rowGet acc k)))) r

/-- Lines 152-154: every object-dtype column is `astype(str)`. -/
def stringifyObjects (t : Table) : Table := t.map (stringifyRow (objColumns t))

/-- The spec's Schema Normalizer on a single tabular structure: column
renaming, then the core normalisation, then string coercion of
non-primitive columns. -/
def normalizeStructure (t : Table) : Option Table :=
  (normalizeHistCore (renameCols t)).map stringifyObjects

/-- `df["OCCURRED_ON_DATE"].max()` (line 137): NaT values are skipped;
an all-NaT column yields NaT (`none`). -/
def tsMax : List Value → Option (Timestamp × Bool)
  | [] => none
  | .time t a :: rest =>
    match tsMax rest with
    | some p => if tsLtB t p.1 then some p else some (t, a)
    | none => some (t, a)
  | _ :: rest => tsMax rest

/-- One comparison of `df_live["OCCURRED_ON_DATE"] > latest_date`
(line 140).  Comparisons against NaT are `False`; comparing a tz-naive
timestamp with a tz-aware one (or a non-datetime value with a timestamp)
raises (`none`). -/
def cmpNewer (v : Value) (latest : Option (Timestamp × Bool)) : Option Bool :=
  match latest with
  | none => some false
  | some (d, da) =>
    match v with
    | .null => some false
    | .time t ta => if ta = da then some (tsLtB d t) else none
    | _ => none

/-- The boolean-mask filter of line 140 over the live table. -/
def filterNewer (latest : Option (Timestamp × Bool)) : Table → Option Table
  | [] => some []
  | r :: rs => do
    let b ← cmpNewer (rowGet r "OCCURRED_ON_DATE") latest
    let rest ← filterNewer latest rs
    pure (if b then r :: rest else rest)

/-- Lines 136-145: compute the watermark from the baseline, keep the
strictly newer live rows, and append them when any exist. -/
def mergeLive (df lt : Table) : Option Table := do
  let kept ← filterNewer (tsMax (colCells df "OCCURRED_ON_DATE")) lt
  pure (if kept.isEmpty then df else df ++ kept)

/-- Lines 116-134: normalisation of the live-feed table.  Unlike the
historical path there is no offset stripping, no `utc=True`, no
`Int64` cast of YEAR, and no missing-column guard for SHOOTING. -/
def liveNormalize (raw : Table) : Option Table := do
  let t1 ← applyColReq "OCCURRED_ON_DATE" (pyToDatetimeCell false) (renameCols raw)
  let t2 ← deriveCol "OCCURRED_ON_DATE" "YEAR" dtYear t1
  let t3 ← deriveCol "OCCURRED_ON_DATE" "MONTH" dtMonth t2
  let t4 ← applyColReq "HOUR" pyToNumericCell t3
  applyColOptReq "SHOOTING" shootingCell t4

/-- The whole `try` block of lines 108-145: `none` is any failure caught
by the `except` (unreachable feed, malformed JSON, missing fields,
raising normalisation, raising comparison). -/
def liveStep (df : Table) (liveRaw : Option Table) : Option Table := do
  let raw ← liveRaw
  let lt ← liveNormalize raw
  mergeLive df lt

/-- How a pipeline run can fail: `fatalNoData` is the `st.stop()` of
line 65, `uncaught` an exception escaping `load_data`. -/
inductive LoadErr where
  | fatalNoData
  | uncaught
deriving DecidableEq, Repr

/-- User-visible warnings: one per failed historical source (line 60) and
one for a failed live step (line 150). -/
inductive Warn where
  | sourceFail
  | liveFail
deriving DecidableEq, Repr

/-- The warnings of the per-source loop: one per failed source, in input
order. -/
def histWarns (results : List (Option Table)) : List Warn :=
  results.filterMap (fun r => match r with | none => some .sourceFail | some _ => none)

/-- Lines 42-105: per-source fetch results (already `none` for a failed
fetch), per-source column renaming, the fatal all-failed check, the
concatenation, and the core normalisation of the baseline. -/
def histPart (results : List (Option Table)) : Except LoadErr Table :=
  if ((results.filterMap id).map renameCols).isEmpty then .error .fatalNoData
  else
    match normalizeHistCore (joinTables ((results.filterMap id).map renameCols)) with
    | some df => .ok df
    | none => .error .uncaught

/-- `load_data` (lines 29-157), as a function of the fetch outcomes: the
historical part, the recoverable live step, and the final object-column
stringification, returning the canonical table and the warnings. -/
def load_data (results : List (Option Table)) (liveRaw : Option Table) :
    Except LoadErr (Table × List Warn) :=
  match histPart results with
  | .error e => .error e
  | .ok df =>
    match liveStep df liveRaw with
    | some merged => .ok (stringifyObjects merged, histWarns results)
    | none => .ok (stringifyObjects df, histWarns results ++ [.liveFail])

/-- The shape of a table already produced by `normalizeStructure`: fixed
column names, a valid UTC-aware (or null) timestamp column with YEAR and
MONTH derived from it, integer-or-null HOUR, integer SHOOTING, and every
object-dtype column stringified.  This is the normal form witnessing
idempotence of the Schema Normalizer. -/
structure IsNormalized (u : Table) : Prop where
  nonempty : u ≠ []
  keysFixed : ∀ r ∈ u, renameRow r = r
  hasOcc : ∀ r ∈ u, rowHas r "OCCURRED_ON_DATE" = true
  hasYear : ∀ r ∈ u, rowHas r "YEAR" = true
  hasMonth : ∀ r ∈ u, rowHas r "MONTH" = true
  hasHour : ∀ r ∈ u, rowHas r "HOUR" = true
  hasShooting : ∀ r ∈ u, rowHas r "SHOOTING" = true
  occGood : ∀ r ∈ u, rowGet r "OCCURRED_ON_DATE" = .null ∨
    ∃ t, rowGet r "OCCURRED_ON_DATE" = .time t true ∧ tsValid t = true
  yearDeriv : ∀ r ∈ u, rowGet r "YEAR" = dtYear (rowGet r "OCCURRED_ON_DATE")
  monthDeriv : ∀ r ∈ u, rowGet r "MONTH" = dtMonth (rowGet r "OCCURRED_ON_DATE")
  hourNum : ∀ r ∈ u, rowGet r "HOUR" = .null ∨ ∃ n, rowGet r "HOUR" = .int n
  shootInt : ∀ r ∈ u, ∃ n, rowGet r "SHOOTING" = .int n
  objStr : ∀ k, isObjCol u k = true → ∀ r ∈ u, rowHas r k = true ∧ ∃ s, rowGet r k = .str s

/-- The canonical table of a pipeline outcome, when one was produced. -/
def resultTable : Except LoadErr (Table × List Warn) → Option Table
  | .ok p => some p.1
  | .error _ => none

/-- The Merge/Dedup Engine as worded by the spec: `latest_date` is the
maximum `occurred_at` ignoring nulls, an all-null baseline is treated as
negative infinity so that every live record counts as newer, and exactly
the live rows strictly greater than `latest_date` are appended. -/
def specMergeLive (df lt : Table) : Table :=
  match tsMax (colCells df "OCCURRED_ON_DATE") with
  | some p =>
    df ++ lt.filter (fun r =>
      match rowGet r "OCCURRED_ON_DATE" with
      | .time t _ => tsLtB p.1 t
      | _ => false)
  | none => df ++ lt

theorem char_toNat_ofNat (n : Nat) (h : n < 55296) : (Char.ofNat n).toNat = n := by
  simp [Char.ofNat, Nat.isValidChar, h, Char.toNat, Char.ofNatAux, UInt32.toNat, UInt32.ofNatCore]

theorem digitChar_toNat (d : Nat) (h : d ≤ 9) : (digitChar d).toNat = 48 + d := by
  simp [digitChar, char_toNat_ofNat (48 + d) (by omega)]

theorem digitVal_digitChar (d : Nat) (h : d ≤ 9) : digitVal (digitChar d) = d := by
  simp [digitVal, digitChar_toNat d h]

theorem isDigitC_digitChar (d : Nat) (h : d ≤ 9) : isDigitC (digitChar d) = true := by
  simp [isDigitC, digitChar_toNat d h]; omega

theorem wsChar_of_isDigitC (c : Char) (h : isDigitC c = true) : wsChar c = false := by
  simp [isDigitC] at h
  simp only [wsChar, Bool.or_eq_false_iff, beq_eq_false_iff_ne]
  refine ⟨⟨⟨?_, ?_⟩, ?_⟩, ?_⟩ <;> (intro hc; subst hc; revert h; decide)

theorem ne_of_toNat_ne {c c' : Char} (h : c.toNat ≠ c'.toNat) : c ≠ c' := by
  intro he; exact h (congrArg Char.toNat he)

theorem digitChar_ne_plus (d : Nat) (h : d ≤ 9) : digitChar d ≠ '+' := by
  apply ne_of_toNat_ne
  rw [digitChar_toNat d h]
  have : ('+').toNat = 43 := by decide
  omega

theorem natToCharsAux_spec :
    ∀ (fuel n : Nat), n < fuel →
      natToCharsAux fuel n ≠ [] ∧ (natToCharsAux fuel n).all isDigitC = true ∧
      (natToCharsAux fuel n).foldl (fun a c => a * 10 + digitVal c) 0 = n := by
  intro fuel
  induction fuel with
  | zero => intro n h; omega
  | succ fuel ih =>
    intro n h
    by_cases h10 : n < 10
    · simp [natToCharsAux, h10, isDigitC_digitChar n (by omega), digitVal_digitChar n (by omega)]
    · have hdiv : n / 10 < fuel := by omega
      obtain ⟨ih1, ih2, ih3⟩ := ih (n / 10) hdiv
      simp only [natToCharsAux, if_neg h10]
      refine ⟨by simp, ?_, ?_⟩
      · simp [List.all_append, ih2, isDigitC_digitChar (n % 10) (by omega)]
      · rw [List.foldl_append, ih3]
        simp [digitVal_digitChar (n % 10) (by omega)]
        omega

theorem natToChars_spec (n : Nat) :
    natToChars n ≠ [] ∧ (natToChars n).all isDigitC = true ∧
    (natToChars n).foldl (fun a c => a * 10 + digitVal c) 0 = n :=
  natToCharsAux_spec (n + 1) n (by omega)

theorem parseNatChars_natToChars (n : Nat) : parseNatChars (natToChars n) = some n := by
  obtain ⟨h1, h2, h3⟩ := natToChars_spec n
  simp [parseNatChars, h1, h2, h3]

theorem dropWhile_eq_self_of {p : Char → Bool} {l : List Char}
    (h : ∀ c ∈ l, p c = false) : l.dropWhile p = l := by
  cases l with
  | nil => rfl
  | cons c cs => simp [List.dropWhile_cons, h c (List.mem_cons_self c cs)]

theorem trimChars_eq_self {l : List Char} (h : ∀ c ∈ l, wsChar c = false) : trimChars l = l := by
  unfold trimChars
  rw [dropWhile_eq_self_of h, dropWhile_eq_self_of (by intro c hc; exact h c (List.mem_reverse.mp hc)),
    List.reverse_reverse]

theorem wsChar_minus : wsChar '-' = false := by decide

theorem intToStr_data_no_ws (n : Int) : ∀ c ∈ (intToStr n).data, wsChar c = false := by
  intro c hc
  obtain ⟨-, h2, -⟩ := natToChars_spec n.natAbs
  unfold intToStr at hc
  by_cases hn : n < 0 <;> simp [hn] at hc
  · rcases hc with hc | hc
    · subst hc; decide
    · exact wsChar_of_isDigitC c (by simpa using (List.all_eq_true.mp h2) c hc)
  · exact wsChar_of_isDigitC c (by simpa using (List.all_eq_true.mp h2) c hc)

theorem parseIntPy_intToStr (n : Int) : parseIntPy (intToStr n) = some n := by
  unfold parseIntPy
  rw [trimChars_eq_self (intToStr_data_no_ws n)]
  by_cases hn : n < 0
  · have hdata : (intToStr n).data = '-' :: natToChars n.natAbs := by simp [intToStr, hn]
    rw [hdata]
    show Option.map (fun m => -Int.ofNat m) (parseNatChars (natToChars n.natAbs)) = some n
    rw [parseNatChars_natToChars]
    simp only [Option.map_some', Int.ofNat_eq_coe]
    congr 1
    omega
  · have hdata : (intToStr n).data = natToChars n.natAbs := by simp [intToStr, hn]
    rw [hdata]
    obtain ⟨h1, h2, -⟩ := natToChars_spec n.natAbs
    obtain ⟨c, cs, hc⟩ := List.exists_cons_of_ne_nil h1
    have hcd : isDigitC c = true := by
      have := (List.all_eq_true.mp h2) c (by rw [hc]; exact List.mem_cons_self c cs)
      simpa using this
    have hcne : c ≠ '-' := by
      intro he; rw [he] at hcd; exact absurd hcd (by decide)
    rw [hc]
    have hred : (match c :: cs with
        | '-' :: rest => (parseNatChars rest).map (fun m => -(Int.ofNat m))
        | cs => (parseNatChars cs).map Int.ofNat) =
        (parseNatChars (c :: cs)).map Int.ofNat := by
      split
      · rename_i heq; rw [List.cons.injEq] at heq; exact absurd heq.1 hcne
      · rfl
    rw [hred, ← hc, parseNatChars_natToChars]
    simp only [Option.map_some', Int.ofNat_eq_coe]
    congr 1
    omega

/-! ### Timestamp rendering / parsing roundtrip -/

theorem renderTsChars_eq (t : Timestamp) :
    renderTsChars t =
      [digitChar (t.year / 1000), digitChar (t.year / 100 % 10), digitChar (t.year / 10 % 10),
       digitChar (t.year % 10), '-', digitChar (t.month / 10), digitChar (t.month % 10), '-',
       digitChar (t.day / 10), digitChar (t.day % 10), ' ', digitChar (t.hour / 10),
       digitChar (t.hour % 10), ':', digitChar (t.minute / 10), digitChar (t.minute % 10), ':',
       digitChar (t.second / 10), digitChar (t.second % 10)] := rfl

theorem tsValid_bounds {t : Timestamp} (hv : tsValid t = true) :
    t.year ≤ 9999 ∧ 1 ≤ t.month ∧ t.month ≤ 12 ∧ 1 ≤ t.day ∧ t.day ≤ 31 ∧
    t.hour ≤ 23 ∧ t.minute ≤ 59 ∧ t.second ≤ 59 := by
  simp only [tsValid, Bool.and_eq_true, decide_eq_true_eq] at hv
  tauto

theorem parseTsCore_render (t : Timestamp) (hv : tsValid t = true) :
    parseTsCore (renderTsChars t) = some t := by
  obtain ⟨y, mo, d, h, mi, s⟩ := t
  obtain ⟨b1, b2, b3, b4, b5, b6, b7, b8⟩ := tsValid_bounds hv
  simp only at b1 b2 b3 b4 b5 b6 b7 b8
  rw [renderTsChars_eq]
  simp only
  rw [parseTsCore]
  simp only [tsOfDigits]
  simp only [isDigitC_digitChar _ (by omega : y / 1000 ≤ 9),
    isDigitC_digitChar _ (by omega : y / 100 % 10 ≤ 9),
    isDigitC_digitChar _ (by omega : y / 10 % 10 ≤ 9),
    isDigitC_digitChar _ (by omega : y % 10 ≤ 9),
    isDigitC_digitChar _ (by omega : mo / 10 ≤ 9),
    isDigitC_digitChar _ (by omega : mo % 10 ≤ 9),
    isDigitC_digitChar _ (by omega : d / 10 ≤ 9),
    isDigitC_digitChar _ (by omega : d % 10 ≤ 9),
    isDigitC_digitChar _ (by omega : h / 10 ≤ 9),
    isDigitC_digitChar _ (by omega : h % 10 ≤ 9),
    isDigitC_digitChar _ (by omega : mi / 10 ≤ 9),
    isDigitC_digitChar _ (by omega : mi % 10 ≤ 9),
    isDigitC_digitChar _ (by omega : s / 10 ≤ 9),
    isDigitC_digitChar _ (by omega : s % 10 ≤ 9),
    digitVal_digitChar _ (by omega : y / 1000 ≤ 9),
    digitVal_digitChar _ (by omega : y / 100 % 10 ≤ 9),
    digitVal_digitChar _ (by omega : y / 10 % 10 ≤ 9),
    digitVal_digitChar _ (by omega : y % 10 ≤ 9),
    digitVal_digitChar _ (by omega : mo / 10 ≤ 9),
    digitVal_digitChar _ (by omega : mo % 10 ≤ 9),
    digitVal_digitChar _ (by omega : d / 10 ≤ 9),
    digitVal_digitChar _ (by omega : d % 10 ≤ 9),
    digitVal_digitChar _ (by omega : h / 10 ≤ 9),
    digitVal_digitChar _ (by omega : h % 10 ≤ 9),
    digitVal_digitChar _ (by omega : mi / 10 ≤ 9),
    digitVal_digitChar _ (by omega : mi % 10 ≤ 9),
    digitVal_digitChar _ (by omega : s / 10 ≤ 9),
    digitVal_digitChar _ (by omega : s % 10 ≤ 9)]
  have e1 : y / 1000 * 1000 + y / 100 % 10 * 100 + y / 10 % 10 * 10 + y % 10 = y := by omega
  have e2 : mo / 10 * 10 + mo % 10 = mo := by omega
  have e3 : d / 10 * 10 + d % 10 = d := by omega
  have e4 : h / 10 * 10 + h % 10 = h := by omega
  have e5 : mi / 10 * 10 + mi % 10 = mi := by omega
  have e6 : s / 10 * 10 + s % 10 = s := by omega
  rw [e1, e2, e3, e4, e5, e6]
  simp [hv]
  exact ⟨isDigitC_digitChar _ (by omega), isDigitC_digitChar _ (by omega),
    isDigitC_digitChar _ (by omega), isDigitC_digitChar _ (by omega),
    isDigitC_digitChar _ (by omega), isDigitC_digitChar _ (by omega),
    isDigitC_digitChar _ (by omega), isDigitC_digitChar _ (by omega),
    isDigitC_digitChar _ (by omega), isDigitC_digitChar _ (by omega),
    isDigitC_digitChar _ (by omega), isDigitC_digitChar _ (by omega),
    isDigitC_digitChar _ (by omega), isDigitC_digitChar _ (by omega)⟩

theorem plus_notin_renderTsChars (t : Timestamp) (hv : tsValid t = true) :
    '+' ∉ renderTsChars t := by
  obtain ⟨b1, b2, b3, b4, b5, b6, b7, b8⟩ := tsValid_bounds hv
  rw [renderTsChars_eq]
  intro hmem
  simp only [List.mem_cons, List.not_mem_nil, or_false] at hmem
  rcases hmem with h | h | h | h | h | h | h | h | h | h | h | h | h | h | h | h | h | h | h <;>
    first
      | exact digitChar_ne_plus _ (by omega) h.symm
      | exact absurd h (by decide)

theorem wsChar_digitChar (d : Nat) (h : d ≤ 9) : wsChar (digitChar d) = false :=
  wsChar_of_isDigitC _ (isDigitC_digitChar d h)

theorem dropWhile_cons_false {p : Char → Bool} {c : Char} {l : List Char}
    (h : p c = false) : (c :: l).dropWhile p = c :: l := by
  simp [List.dropWhile_cons, h]

theorem trimChars_cons_concat {c c' : Char} {mid : List Char}
    (h1 : wsChar c = false) (h2 : wsChar c' = false) :
    trimChars (c :: (mid ++ [c'])) = c :: (mid ++ [c']) := by
  unfold trimChars
  rw [dropWhile_cons_false h1]
  have hrev : (c :: (mid ++ [c'])).reverse = c' :: (mid.reverse ++ [c]) := by
    simp
  rw [hrev, dropWhile_cons_false h2, ← hrev, List.reverse_reverse]

theorem trimChars_renderTsChars (t : Timestamp) (hv : tsValid t = true) :
    trimChars (renderTsChars t) = renderTsChars t := by
  obtain ⟨b1, b2, b3, b4, b5, b6, b7, b8⟩ := tsValid_bounds hv
  rw [renderTsChars_eq]
  exact @trimChars_cons_concat (digitChar (t.year / 1000)) (digitChar (t.second % 10))
    [digitChar (t.year / 100 % 10), digitChar (t.year / 10 % 10), digitChar (t.year % 10), '-',
     digitChar (t.month / 10), digitChar (t.month % 10), '-', digitChar (t.day / 10),
     digitChar (t.day % 10), ' ', digitChar (t.hour / 10), digitChar (t.hour % 10), ':',
     digitChar (t.minute / 10), digitChar (t.minute % 10), ':', digitChar (t.second / 10)]
    (wsChar_digitChar _ (by omega)) (wsChar_digitChar _ (by omega))

theorem isSuffixOf_mem {l₁ l₂ : List Char} {c : Char} (h : l₁.isSuffixOf l₂ = true)
    (hc : c ∈ l₁) : c ∈ l₂ := by
  rw [List.isSuffixOf_iff_suffix] at h
  exact h.subset hc

theorem splitOffset_no_plus {cs : List Char} (h : '+' ∉ cs) : splitOffset cs = (cs, false) := by
  unfold splitOffset
  rw [if_neg, if_neg]
  · intro hs; exact h (isSuffixOf_mem hs (by decide))
  · intro hs; exact h (isSuffixOf_mem hs (by decide))

theorem splitOffset_append_offset6 {cs : List Char} :
    splitOffset (cs ++ ['+', '0', '0', ':', '0', '0']) = (cs, true) := by
  unfold splitOffset
  rw [if_pos]
  · congr 1
    have : (cs ++ ['+', '0', '0', ':', '0', '0']).length - 6 = cs.length := by
      simp
    rw [this, List.take_left]
  · rw [List.isSuffixOf_iff_suffix]
    exact ⟨cs, rfl⟩

theorem stripPlus00_cons_ne {c : Char} {l : List Char} (hc : c ≠ '+') :
    stripPlus00 (c :: l) = c :: stripPlus00 l := by
  rw [stripPlus00.eq_def]
  split
  · rename_i heq; injection heq with h1 _; exact absurd h1 hc
  · rename_i heq; injection heq with h1 _; exact absurd h1 hc
  · rename_i heq; injection heq with h1 h2; rw [h1, h2]
  · rename_i heq; exact absurd heq (by simp)

theorem stripPlus00_append_of_no_plus {l m : List Char} (h : '+' ∉ l) :
    stripPlus00 (l ++ m) = l ++ stripPlus00 m := by
  induction l with
  | nil => rfl
  | cons c l' ih =>
    have hc : c ≠ '+' := by intro he; exact h (by rw [he]; exact List.mem_cons_self _ _)
    rw [List.cons_append, stripPlus00_cons_ne hc, ih (fun hm => h (List.mem_cons_of_mem _ hm)),
      List.cons_append]

theorem renderTs_true_data (t : Timestamp) :
    (renderTs t true).data = renderTsChars t ++ ['+', '0', '0', ':', '0', '0'] := rfl

theorem stripPlus00_renderTs_true (t : Timestamp) (hv : tsValid t = true) :
    stripPlus00 (renderTs t true).data = renderTsChars t := by
  rw [renderTs_true_data, stripPlus00_append_of_no_plus (plus_notin_renderTsChars t hv)]
  simp [show stripPlus00 ['+', '0', '0', ':', '0', '0'] = [] from rfl]

theorem parseTsStr_renderCore (t : Timestamp) (hv : tsValid t = true) :
    parseTsStr ⟨renderTsChars t⟩ = some (t, false) := by
  unfold parseTsStr
  show (parseTsCore (splitOffset (renderTsChars t)).1).map _ = _
  rw [splitOffset_no_plus (plus_notin_renderTsChars t hv)]
  simp [parseTsCore_render t hv]

theorem trimStr_mk_renderTsChars (t : Timestamp) (hv : tsValid t = true) :
    trimStr ⟨renderTsChars t⟩ = ⟨renderTsChars t⟩ := by
  unfold trimStr
  exact congrArg String.mk (trimChars_renderTsChars t hv)

theorem pyToDatetimeCell_str (utc : Bool) (s : String) :
    pyToDatetimeCell utc (.str s) =
      match parseTsStr s with
      | some (t, off) => .time t (utc || off)
      | none => .null := rfl

theorem histTsCell_time_true (t : Timestamp) (hv : tsValid t = true) :
    histTsCell (.time t true) = .time t true := by
  unfold histTsCell
  have h1 : pyStr (.time t true) = renderTs t true := rfl
  rw [h1, stripPlus00_renderTs_true t hv, trimStr_mk_renderTsChars t hv,
    pyToDatetimeCell_str, parseTsStr_renderCore t hv]
  rfl

theorem histTsCell_null : histTsCell .null = .null := rfl

theorem parseTsCore_valid {cs : List Char} {t : Timestamp} (h : parseTsCore cs = some t) :
    tsValid t = true := by
  rw [parseTsCore.eq_def] at h
  split at h
  · split at h
    · split at h
      · injection h with h'; rw [← h']; assumption
      · exact absurd h (by simp)
    · exact absurd h (by simp)
  · exact absurd h (by simp)

theorem parseTsStr_valid {s : String} {t : Timestamp} {off : Bool}
    (h : parseTsStr s = some (t, off)) : tsValid t = true := by
  unfold parseTsStr at h
  rw [Option.map_eq_some'] at h
  obtain ⟨t', hcore, heq⟩ := h
  injection heq with heq1 heq2
  exact heq1 ▸ parseTsCore_valid hcore

theorem histTsCell_good (v : Value) :
    histTsCell v = .null ∨ ∃ t, histTsCell v = .time t true ∧ tsValid t = true := by
  unfold histTsCell
  rw [pyToDatetimeCell_str]
  cases hp : parseTsStr (trimStr ⟨stripPlus00 (pyStr v).data⟩) with
  | none => left; simp
  | some p =>
    obtain ⟨t, off⟩ := p
    right
    exact ⟨t, by simp, parseTsStr_valid hp⟩

/-! ### Row and table lemmas -/

theorem rowGet_set_self (r : Row) (k : String) (v : Value) : rowGet (rowSet r k v) k = v := by
  induction r with
  | nil => simp [rowSet, rowGet]
  | cons p r ih =>
    obtain ⟨k', v'⟩ := p
    by_cases h : k' = k <;> simp [rowSet, rowGet, h, ih]

theorem rowGet_set_ne (r : Row) {k k' : String} (h : k' ≠ k) (v : Value) :
    rowGet (rowSet r k' v) k = rowGet r k := by
  induction r with
  | nil => simp [rowSet, rowGet, h]
  | cons p r ih =>
    obtain ⟨k'', v''⟩ := p
    by_cases h2 : k'' = k'
    · subst h2; simp [rowSet, rowGet, h]
    · simp [rowSet, h2]
      by_cases h3 : k'' = k <;> simp [rowGet, h3, ih]

theorem rowHas_set_self (r : Row) (k : String) (v : Value) : rowHas (rowSet r k v) k = true := by
  induction r with
  | nil => simp [rowSet, rowHas]
  | cons p r ih =>
    obtain ⟨k', v'⟩ := p
    by_cases h : k' = k <;> simp [rowSet, rowHas, h, ih]

theorem rowHas_set_ne (r : Row) {k k' : String} (h : k' ≠ k) (v : Value) :
    rowHas (rowSet r k' v) k = rowHas r k := by
  induction r with
  | nil => simp [rowSet, rowHas, h]
  | cons p r ih =>
    obtain ⟨k'', v''⟩ := p
    by_cases h2 : k'' = k'
    · subst h2; simp [rowSet, rowHas, h]
    · simp [rowSet, h2]
      by_cases h3 : k'' = k <;> simp [rowHas, h3, ih]

theorem rowSet_rowGet_self {r : Row} {k : String} (h : rowHas r k = true) :
    rowSet r k (rowGet r k) = r := by
  induction r with
  | nil => simp [rowHas] at h
  | cons p r ih =>
    obtain ⟨k', v'⟩ := p
    by_cases h2 : k' = k
    · subst h2; simp [rowSet, rowGet]
    · simp [rowHas, h2] at h
      simp [rowSet, rowGet, h2, ih h]

theorem mem_rowSet {r : Row} {k : String} {v : Value} {p : String × Value}
    (h : p ∈ rowSet r k v) : p ∈ r ∨ p = (k, v) := by
  induction r with
  | nil => simp [rowSet] at h; right; exact h
  | cons q r ih =>
    obtain ⟨k', v'⟩ := q
    by_cases h2 : k' = k
    · subst h2
      simp [rowSet] at h
      rcases h with h | h
      · right; exact h
      · left; exact List.mem_cons_of_mem _ h
    · simp [rowSet, h2] at h
      rcases h with h | h
      · left; rw [h]; exact List.mem_cons_self _ _
      · rcases ih h with h3 | h3
        · left; exact List.mem_cons_of_mem _ h3
        · right; exact h3

/-! ### Column-name normalisation is idempotent -/

theorem char_eq_of_toNat_eq {c c' : Char} (h : c.toNat = c'.toNat) : c = c' := by
  cases c; cases c'
  simp only [Char.toNat] at h
  congr 1
  exact UInt32.ext h

theorem upperChar_toNat (c : Char) :
    (upperChar c).toNat = if 97 ≤ c.toNat ∧ c.toNat ≤ 122 then c.toNat - 32 else c.toNat := by
  unfold upperChar
  by_cases h : 97 ≤ c.toNat ∧ c.toNat ≤ 122
  · rw [if_pos (by simp [h.1, h.2]), if_pos h, char_toNat_ofNat _ (by omega)]
  · rw [if_neg, if_neg h]
    simp only [Bool.and_eq_true, decide_eq_true_eq]
    omega

theorem upperChar_idem (c : Char) : upperChar (upperChar c) = upperChar c := by
  apply char_eq_of_toNat_eq
  rw [upperChar_toNat (upperChar c), upperChar_toNat c]
  by_cases h : 97 ≤ c.toNat ∧ c.toNat ≤ 122
  · simp [h]; omega
  · simp [h]

theorem wsChar_toNat (c : Char) :
    wsChar c = (c.toNat == 32 || c.toNat == 9 || c.toNat == 10 || c.toNat == 13) := by
  unfold wsChar
  have hs : (c == ' ') = (c.toNat == 32) := by
    by_cases h : c = ' '
    · subst h; rfl
    · have : c.toNat ≠ 32 := fun he => h (char_eq_of_toNat_eq he)
      simp [h, this]
  have ht : (c == '\t') = (c.toNat == 9) := by
    by_cases h : c = '\t'
    · subst h; rfl
    · have : c.toNat ≠ 9 := fun he => h (char_eq_of_toNat_eq he)
      simp [h, this]
  have hn : (c == '\n') = (c.toNat == 10) := by
    by_cases h : c = '\n'
    · subst h; rfl
    · have : c.toNat ≠ 10 := fun he => h (char_eq_of_toNat_eq he)
      simp [h, this]
  have hr : (c == '\r') = (c.toNat == 13) := by
    by_cases h : c = '\r'
    · subst h; rfl
    · have : c.toNat ≠ 13 := fun he => h (char_eq_of_toNat_eq he)
      simp [h, this]
  rw [hs, ht, hn, hr]

theorem wsChar_upperChar (c : Char) : wsChar (upperChar c) = wsChar c := by
  rw [wsChar_toNat, wsChar_toNat, upperChar_toNat]
  by_cases h : 97 ≤ c.toNat ∧ c.toNat ≤ 122
  · rw [if_pos h]
    have h1 : c.toNat - 32 ≠ 32 := by omega
    have h2 : c.toNat - 32 ≠ 9 := by omega
    have h3 : c.toNat - 32 ≠ 10 := by omega
    have h4 : c.toNat - 32 ≠ 13 := by omega
    have hl : (c.toNat - 32 == 32 || c.toNat - 32 == 9 || c.toNat - 32 == 10 ||
        c.toNat - 32 == 13) = false := by simp; omega
    have hr : (c.toNat == 32 || c.toNat == 9 || c.toNat == 10 || c.toNat == 13) = false := by
      simp; omega
    rw [hl, hr]
  · rw [if_neg h]

theorem dropWhile_dropWhile (p : Char → Bool) (l : List Char) :
    (l.dropWhile p).dropWhile p = l.dropWhile p := by
  induction l with
  | nil => rfl
  | cons c l ih =>
    by_cases h : p c
    · simp [List.dropWhile_cons, h, ih]
    · simp [List.dropWhile_cons, h]

theorem dropWhile_cons_head_false {p : Char → Bool} {l : List Char} {c : Char} {cs : List Char}
    (h : l.dropWhile p = c :: cs) : p c = false := by
  induction l with
  | nil => simp [List.dropWhile] at h
  | cons a l ih =>
    by_cases ha : p a
    · rw [List.dropWhile_cons, if_pos ha] at h; exact ih h
    · rw [List.dropWhile_cons, if_neg ha] at h
      injection h with h1 _
      rw [← h1]
      exact Bool.of_not_eq_true ha

theorem dropWhile_getLast? {p : Char → Bool} {l : List Char} {c : Char} {cs : List Char}
    (h : l.dropWhile p = c :: cs) : l.getLast? = (c :: cs).getLast? := by
  induction l with
  | nil => simp [List.dropWhile] at h
  | cons a l ih =>
    by_cases ha : p a
    · rw [List.dropWhile_cons, if_pos ha] at h
      have hl : l ≠ [] := by
        intro he; rw [he] at h; simp [List.dropWhile] at h
      have : (a :: l).getLast? = l.getLast? := by
        cases l with
        | nil => exact absurd rfl hl
        | cons b m => simp [List.getLast?_cons_cons]
      rw [this]
      exact ih h
    · rw [List.dropWhile_cons, if_neg ha] at h
      rw [h]

theorem trimChars_trimChars (l : List Char) : trimChars (trimChars l) = trimChars l := by
  unfold trimChars
  set A := l.dropWhile wsChar with hA
  set B := A.reverse.dropWhile wsChar with hB
  have hstep : List.dropWhile wsChar B.reverse = B.reverse := by
    cases hBr : B.reverse with
    | nil => simp
    | cons d ds =>
      have hBne : B ≠ [] := by
        intro he; rw [he] at hBr; simp at hBr
      have hAne : A ≠ [] := by
        intro he
        rw [hB, he] at hBne
        simp [List.dropWhile] at hBne
      obtain ⟨a, as, hAc⟩ := List.exists_cons_of_ne_nil hAne
      have hwa : wsChar a = false := dropWhile_cons_head_false (hA ▸ hAc)
      have hgl : A.reverse.getLast? = B.getLast? := by
        obtain ⟨c, cs, hBc⟩ := List.exists_cons_of_ne_nil hBne
        rw [hBc]
        exact dropWhile_getLast? (hB ▸ hBc)
      have hglA : A.reverse.getLast? = some a := by
        rw [List.getLast?_reverse, hAc]
        rfl
      have hd2 : B.getLast? = some d := by
        rw [← List.head?_reverse, hBr]
        rfl
      have had : a = d := by
        rw [hgl, hd2] at hglA
        injection hglA with h'
        exact h'.symm
      exact dropWhile_cons_false (had ▸ hwa)
  rw [hstep, List.reverse_reverse]
  have hBB : B.dropWhile wsChar = B := by
    rw [hB]
    exact dropWhile_dropWhile _ _
  rw [hBB]

theorem trimChars_map_upperChar (l : List Char) :
    trimChars (l.map upperChar) = (trimChars l).map upperChar := by
  unfold trimChars
  have hcomp : (wsChar ∘ upperChar) = wsChar := funext wsChar_upperChar
  rw [List.dropWhile_map, hcomp, ← List.map_reverse, List.dropWhile_map, hcomp,
    ← List.map_reverse]

theorem normName_idem (s : String) : normName (normName s) = normName s := by
  show upperStr (trimStr (upperStr (trimStr s))) = upperStr (trimStr s)
  unfold upperStr trimStr
  apply congrArg String.mk
  show ((trimChars ((trimChars s.data).map upperChar))).map upperChar =
    (trimChars s.data).map upperChar
  rw [trimChars_map_upperChar, trimChars_trimChars, List.map_map]
  have : (upperChar ∘ upperChar) = upperChar := funext upperChar_idem
  rw [this]

theorem renameRow_eq_self {r : Row} (h : ∀ p ∈ r, normName p.1 = p.1) : renameRow r = r := by
  unfold renameRow
  induction r with
  | nil => rfl
  | cons q r ih =>
    have hq := h q (List.mem_cons_self _ _)
    rw [List.map_cons, hq, ih (fun p hp => h p (List.mem_cons_of_mem _ hp))]

theorem renameRow_keys (r : Row) : ∀ p ∈ renameRow r, normName p.1 = p.1 := by
  intro p hp
  unfold renameRow at hp
  rw [List.mem_map] at hp
  obtain ⟨q, -, hq⟩ := hp
  rw [← hq]
  exact normName_idem q.1

theorem keys_fixed_rowSet {r : Row} {k : String} {v : Value}
    (h : ∀ p ∈ r, normName p.1 = p.1) (hk : normName k = k) :
    ∀ p ∈ rowSet r k v, normName p.1 = p.1 := by
  intro p hp
  rcases mem_rowSet hp with h2 | h2
  · exact h p h2
  · rw [h2]; exact hk

theorem normName_occ : normName "OCCURRED_ON_DATE" = "OCCURRED_ON_DATE" := by decide
theorem normName_year : normName "YEAR" = "YEAR" := by decide
theorem normName_month : normName "MONTH" = "MONTH" := by decide
theorem normName_hour : normName "HOUR" = "HOUR" := by decide
theorem normName_shooting : normName "SHOOTING" = "SHOOTING" := by decide

/-! ### Cell-level fixpoints and table-operation helpers -/

theorem intToStr_mem {n : Int} {c : Char} (hc : c ∈ (intToStr n).data) :
    isDigitC c = true ∨ c = '-' := by
  obtain ⟨-, h2, -⟩ := natToChars_spec n.natAbs
  unfold intToStr at hc
  by_cases hn : n < 0 <;> simp [hn] at hc
  · rcases hc with hc | hc
    · right; exact hc
    · left; simpa using (List.all_eq_true.mp h2) c hc
  · left; simpa using (List.all_eq_true.mp h2) c hc

theorem intToStr_ne_nonnumeric {n : Int} {s : String} {c : Char}
    (hcm : c ∈ s.data) (hd : isDigitC c = false) (hm : c ≠ '-') : intToStr n ≠ s := by
  intro he
  rw [← he] at hcm
  rcases intToStr_mem hcm with h | h
  · rw [h] at hd; exact absurd hd (by simp)
  · exact hm h

theorem intToStr_ne_empty (n : Int) : intToStr n ≠ "" := by
  intro he
  have hd : (intToStr n).data = [] := by rw [he]
  obtain ⟨h1, -, -⟩ := natToChars_spec n.natAbs
  unfold intToStr at hd
  by_cases hn : n < 0
  · simp [hn] at hd
  · simp [hn] at hd; exact h1 hd

theorem trimStr_eq_self_of (s : String) (h : ∀ c ∈ s.data, wsChar c = false) :
    trimStr s = s := by
  unfold trimStr
  rw [trimChars_eq_self h]

theorem shootingMap_eq_self {s : String} (h1 : s ≠ "Y") (h2 : s ≠ "N") (h3 : s ≠ "")
    (h4 : s ≠ "nan") : shootingMap s = s := by
  unfold shootingMap
  rw [if_neg (by simpa using h1), if_neg (by simpa using h2), if_neg (by simpa using h3),
    if_neg (by simpa using h4)]

theorem shootingCell_int (n : Int) : shootingCell (.int n) = some (.int n) := by
  unfold shootingCell
  have hps : pyStr (.int n) = intToStr n := rfl
  rw [hps, trimStr_eq_self_of _ (intToStr_data_no_ws n),
    shootingMap_eq_self (@intToStr_ne_nonnumeric n "Y" 'Y' (by decide) (by decide) (by decide))
      (@intToStr_ne_nonnumeric n "N" 'N' (by decide) (by decide) (by decide))
      (intToStr_ne_empty n)
      (@intToStr_ne_nonnumeric n "nan" 'n' (by decide) (by decide) (by decide)),
    parseIntPy_intToStr]
  rfl

theorem shootingCell_shape {v v' : Value} (h : shootingCell v = some v') : ∃ n, v' = .int n := by
  unfold shootingCell at h
  rw [Option.map_eq_some'] at h
  obtain ⟨n, -, hn⟩ := h
  exact ⟨n, hn.symm⟩

theorem map_eq_self {α : Type} {f : α → α} {l : List α} (h : ∀ a ∈ l, f a = a) :
    l.map f = l := by
  induction l with
  | nil => rfl
  | cons a l ih =>
    rw [List.map_cons, h a (List.mem_cons_self _ _), ih (fun b hb => h b (List.mem_cons_of_mem _ hb))]

theorem mapM_eq_some_self {step : Row → Option Row} {t : Table}
    (h : ∀ r ∈ t, step r = some r) : t.mapM step = some t := by
  induction t with
  | nil => rfl
  | cons r t ih =>
    rw [List.mapM_cons, h r (List.mem_cons_self _ _), ih (fun q hq => h q (List.mem_cons_of_mem _ hq))]
    rfl

theorem mapM_some_forall₂ {step : Row → Option Row} {t t' : Table}
    (h : t.mapM step = some t') : List.Forall₂ (fun r r' => step r = some r') t t' := by
  induction t generalizing t' with
  | nil =>
    simp only [List.mapM_nil, pure, Option.some.injEq] at h
    rw [← h]
    exact List.Forall₂.nil
  | cons r t ih =>
    rw [List.mapM_cons] at h
    cases hs : step r with
    | none => rw [hs] at h; simp at h
    | some r' =>
      rw [hs] at h
      cases hm : t.mapM step with
      | none => rw [hm] at h; simp at h
      | some ts =>
        rw [hm] at h
        simp only [Option.bind_eq_bind, Option.some_bind, pure, Option.some.injEq] at h
        rw [← h]
        exact List.Forall₂.cons hs (ih hm)

/-! ### A normalized table is a fixpoint of the Schema Normalizer -/

theorem hasCol_of_forall {t : Table} {k : String} (hne : t ≠ [])
    (h : ∀ r ∈ t, rowHas r k = true) : hasCol t k = true := by
  obtain ⟨r, t', hrt⟩ := List.exists_cons_of_ne_nil hne
  rw [hrt]
  unfold hasCol
  simp only [List.any_cons, Bool.or_eq_true]
  left
  exact h r (by rw [hrt]; exact List.mem_cons_self _ _)

theorem applyColReq_self {k : String} {f : Value → Value} {t : Table}
    (hcol : hasCol t k = true) (h : ∀ r ∈ t, rowSet r k (f (rowGet r k)) = r) :
    applyColReq k f t = some t := by
  unfold applyColReq
  rw [if_pos hcol, map_eq_self h]

theorem deriveCol_self {src dst : String} {f : Value → Value} {t : Table}
    (hcol : hasCol t src = true) (h : ∀ r ∈ t, rowSet r dst (f (rowGet r src)) = r) :
    deriveCol src dst f t = some t := by
  unfold deriveCol
  rw [if_pos hcol, map_eq_self h]

theorem applyColOptReq_self {k : String} {f : Value → Option Value} {t : Table}
    (hcol : hasCol t k = true) (h : ∀ r ∈ t, (f (rowGet r k)).map (fun v => rowSet r k v) = some r) :
    applyColOptReq k f t = some t := by
  unfold applyColOptReq
  rw [if_pos hcol, mapM_eq_some_self h]

theorem stringifyRow_eq_self {cols : List String} {r : Row}
    (h : ∀ k ∈ cols, rowHas r k = true ∧ ∃ s, rowGet r k = .str s) :
    stringifyRow cols r = r := by
  induction cols with
  | nil => rfl
  | cons k cols ih =>
    obtain ⟨hk, s, hs⟩ := h k (List.mem_cons_self _ _)
    unfold stringifyRow
    rw [List.foldl_cons]
    have hstep : rowSet r k (.str (pyStr (rowGet r k))) = r := by
      rw [hs]
      show rowSet r k (.str s) = r
      rw [← hs]
      exact rowSet_rowGet_self hk
    rw [hstep]
    exact ih (fun k' hk' => h k' (List.mem_cons_of_mem _ hk'))

theorem stringifyObjects_of_normalized {u : Table} (h : IsNormalized u) :
    stringifyObjects u = u := by
  unfold stringifyObjects
  apply map_eq_self
  intro r hr
  apply stringifyRow_eq_self
  intro k hk
  have hobj : isObjCol u k = true := (List.mem_filter.mp hk).2
  exact h.objStr k hobj r hr

theorem yearCell_shape {u : Table} (h : IsNormalized u) {r : Row} (hr : r ∈ u) :
    rowGet r "YEAR" = .null ∨ ∃ n, rowGet r "YEAR" = .int n := by
  rw [h.yearDeriv r hr]
  rcases h.occGood r hr with ho | ⟨t, ho, -⟩ <;> rw [ho]
  · left; rfl
  · right; exact ⟨t.year, rfl⟩

theorem normalizeHistCore_of_normalized {u : Table} (h : IsNormalized u) :
    normalizeHistCore u = some u := by
  have h1 : applyColReq "OCCURRED_ON_DATE" histTsCell u = some u := by
    apply applyColReq_self (hasCol_of_forall h.nonempty h.hasOcc)
    intro r hr
    rcases h.occGood r hr with ho | ⟨t, ho, hv⟩
    · rw [ho, histTsCell_null, ← ho]
      exact rowSet_rowGet_self (h.hasOcc r hr)
    · rw [ho, histTsCell_time_true t hv, ← ho]
      exact rowSet_rowGet_self (h.hasOcc r hr)
  have h2 : deriveCol "OCCURRED_ON_DATE" "YEAR" dtYear u = some u := by
    apply deriveCol_self (hasCol_of_forall h.nonempty h.hasOcc)
    intro r hr
    rw [← h.yearDeriv r hr]
    exact rowSet_rowGet_self (h.hasYear r hr)
  have h3 : deriveCol "OCCURRED_ON_DATE" "MONTH" dtMonth u = some u := by
    apply deriveCol_self (hasCol_of_forall h.nonempty h.hasOcc)
    intro r hr
    rw [← h.monthDeriv r hr]
    exact rowSet_rowGet_self (h.hasMonth r hr)
  have h4 : applyColReq "HOUR" pyToNumericCell u = some u := by
    apply applyColReq_self (hasCol_of_forall h.nonempty h.hasHour)
    intro r hr
    rcases h.hourNum r hr with ho | ⟨n, ho⟩ <;> rw [ho]
    · show rowSet r "HOUR" Value.null = r
      rw [← ho]; exact rowSet_rowGet_self (h.hasHour r hr)
    · show rowSet r "HOUR" (Value.int n) = r
      rw [← ho]; exact rowSet_rowGet_self (h.hasHour r hr)
  have h5 : applyColOptReq "YEAR" asTypeInt64Cell u = some u := by
    apply applyColOptReq_self (hasCol_of_forall h.nonempty h.hasYear)
    intro r hr
    rcases yearCell_shape h hr with ho | ⟨n, ho⟩ <;> rw [ho]
    · show (asTypeInt64Cell Value.null).map _ = some r
      show some (rowSet r "YEAR" Value.null) = some r
      rw [← ho]
      exact congrArg some (rowSet_rowGet_self (h.hasYear r hr))
    · show (asTypeInt64Cell (Value.int n)).map _ = some r
      show some (rowSet r "YEAR" (Value.int n)) = some r
      rw [← ho]
      exact congrArg some (rowSet_rowGet_self (h.hasYear r hr))
  have h6 : shootingStep u = some u := by
    unfold shootingStep
    rw [if_pos (hasCol_of_forall h.nonempty h.hasShooting)]
    apply applyColOptReq_self (hasCol_of_forall h.nonempty h.hasShooting)
    intro r hr
    obtain ⟨n, hn⟩ := h.shootInt r hr
    rw [hn, shootingCell_int]
    show some (rowSet r "SHOOTING" (Value.int n)) = some r
    rw [← hn]
    exact congrArg some (rowSet_rowGet_self (h.hasShooting r hr))
  show (do
    let t1 ← applyColReq "OCCURRED_ON_DATE" histTsCell u
    let t2 ← deriveCol "OCCURRED_ON_DATE" "YEAR" dtYear t1
    let t3 ← deriveCol "OCCURRED_ON_DATE" "MONTH" dtMonth t2
    let t4 ← applyColReq "HOUR" pyToNumericCell t3
    let t5 ← applyColOptReq "YEAR" asTypeInt64Cell t4
    shootingStep t5) = some u
  rw [h1]
  show (do
    let t2 ← deriveCol "OCCURRED_ON_DATE" "YEAR" dtYear u
    let t3 ← deriveCol "OCCURRED_ON_DATE" "MONTH" dtMonth t2
    let t4 ← applyColReq "HOUR" pyToNumericCell t3
    let t5 ← applyColOptReq "YEAR" asTypeInt64Cell t4
    shootingStep t5) = some u
  rw [h2]
  show (do
    let t3 ← deriveCol "OCCURRED_ON_DATE" "MONTH" dtMonth u
    let t4 ← applyColReq "HOUR" pyToNumericCell t3
    let t5 ← applyColOptReq "YEAR" asTypeInt64Cell t4
    shootingStep t5) = some u
  rw [h3]
  show (do
    let t4 ← applyColReq "HOUR" pyToNumericCell u
    let t5 ← applyColOptReq "YEAR" asTypeInt64Cell t4
    shootingStep t5) = some u
  rw [h4]
  show (do
    let t5 ← applyColOptReq "YEAR" asTypeInt64Cell u
    shootingStep t5) = some u
  rw [h5]
  show shootingStep u = some u
  exact h6

theorem normalizeStructure_of_normalized {u : Table} (h : IsNormalized u) :
    normalizeStructure u = some u := by
  unfold normalizeStructure
  have hren : renameCols u = u := map_eq_self h.keysFixed
  rw [hren, normalizeHistCore_of_normalized h]
  rw [Option.map_some', stringifyObjects_of_normalized h]

/-! ### Normalisation output is in normal form -/

theorem applyColReq_eq_some {k : String} {f : Value → Value} {t t' : Table}
    (h : applyColReq k f t = some t') :
    hasCol t k = true ∧ t' = t.map (fun r => rowSet r k (f (rowGet r k))) := by
  unfold applyColReq at h
  split at h
  · exact ⟨by assumption, (Option.some.inj h).symm⟩
  · exact absurd h (by simp)

theorem deriveCol_eq_some {src dst : String} {f : Value → Value} {t t' : Table}
    (h : deriveCol src dst f t = some t') :
    hasCol t src = true ∧ t' = t.map (fun r => rowSet r dst (f (rowGet r src))) := by
  unfold deriveCol at h
  split at h
  · exact ⟨by assumption, (Option.some.inj h).symm⟩
  · exact absurd h (by simp)

theorem applyColOptReq_eq_some {k : String} {f : Value → Option Value} {t t' : Table}
    (h : applyColOptReq k f t = some t') :
    hasCol t k = true ∧
      List.Forall₂ (fun r r' => (f (rowGet r k)).map (fun v => rowSet r k v) = some r') t t' := by
  unfold applyColOptReq at h
  split at h
  · exact ⟨by assumption, mapM_some_forall₂ h⟩
  · exact absurd h (by simp)

theorem forall₂_mem_right {R : Row → Row → Prop} {t t' : Table}
    (h : List.Forall₂ R t t') : ∀ r' ∈ t', ∃ r ∈ t, R r r' := by
  induction h with
  | nil => intro r' hr'; exact absurd hr' (List.not_mem_nil r')
  | cons hR hrest ih =>
    intro r' hr'
    rcases List.mem_cons.mp hr' with he | hm
    · rename_i a b as bs
      exact ⟨a, List.mem_cons_self _ _, he ▸ hR⟩
    · obtain ⟨r, hrm, hRr⟩ := ih r' hm
      exact ⟨r, List.mem_cons_of_mem _ hrm, hRr⟩

theorem hasCol_ne_nil {t : Table} {k : String} (h : hasCol t k = true) : t ≠ [] := by
  intro he
  rw [he] at h
  simp [hasCol] at h

theorem pyToNumericCell_shape (v : Value) :
    pyToNumericCell v = .null ∨ ∃ n, pyToNumericCell v = .int n := by
  cases v with
  | int n => right; exact ⟨n, rfl⟩
  | bool b => right; exact ⟨if b then 1 else 0, rfl⟩
  | str s =>
    have hred : pyToNumericCell (.str s) =
        (match parseIntPy s with | some n => Value.int n | none => Value.null) := rfl
    rw [hred]
    cases hp : parseIntPy s with
    | none => left; rfl
    | some n => right; exact ⟨n, rfl⟩
  | null => left; rfl
  | time t a => left; rfl
  | obj r => left; rfl

theorem isObjCol_iff {t : Table} {k : String} :
    isObjCol t k = true ↔ ∃ r ∈ t, isObjVal (rowGet r k) = true := by
  unfold isObjCol colCells
  rw [List.any_eq_true]
  constructor
  · rintro ⟨v, hv, hov⟩
    rw [List.mem_map] at hv
    obtain ⟨r, hr, hrv⟩ := hv
    exact ⟨r, hr, hrv ▸ hov⟩
  · rintro ⟨r, hr, hov⟩
    exact ⟨rowGet r k, List.mem_map.mpr ⟨r, hr, rfl⟩, hov⟩

theorem isObjVal_ne_null {v : Value} (h : isObjVal v = true) : v ≠ .null := by
  intro he
  rw [he] at h
  exact absurd h (by decide)

theorem rowGet_ne_null_rowHas {r : Row} {k : String} (h : rowGet r k ≠ .null) :
    rowHas r k = true := by
  induction r with
  | nil => exact absurd rfl h
  | cons p r ih =>
    obtain ⟨k', v'⟩ := p
    by_cases h2 : k' = k
    · simp [rowHas, h2]
    · simp [rowGet, h2] at h
      simp [rowHas, h2, ih h]

theorem rowHas_mem_keys {r : Row} {k : String} (h : rowHas r k = true) :
    ∃ p ∈ r, p.1 = k := by
  induction r with
  | nil => simp [rowHas] at h
  | cons p r ih =>
    obtain ⟨k', v'⟩ := p
    by_cases h2 : k' = k
    · exact ⟨(k', v'), List.mem_cons_self _ _, h2⟩
    · simp [rowHas, h2] at h
      obtain ⟨q, hq, hqk⟩ := ih h
      exact ⟨q, List.mem_cons_of_mem _ hq, hqk⟩

theorem mem_allKeys_of {t : Table} {r : Row} {k : String} (hr : r ∈ t)
    (h : rowHas r k = true) : k ∈ allKeys t := by
  obtain ⟨p, hp, hpk⟩ := rowHas_mem_keys h
  unfold allKeys
  rw [List.mem_flatMap]
  exact ⟨r, hr, List.mem_map.mpr ⟨p, hp, hpk⟩⟩

theorem stringifyRow_get_not_mem {cols : List String} {r : Row} {k : String} (h : k ∉ cols) :
    rowGet (stringifyRow cols r) k = rowGet r k := by
  induction cols generalizing r with
  | nil => rfl
  | cons c cs ih =>
    have hc : c ≠ k := fun he => h (he ▸ List.mem_cons_self _ _)
    unfold stringifyRow
    rw [List.foldl_cons]
    have := @ih (rowSet r c (.str (pyStr (rowGet r c)))) (fun hm => h (List.mem_cons_of_mem _ hm))
    unfold stringifyRow at this
    rw [this, rowGet_set_ne r hc]

theorem stringifyRow_has_not_mem {cols : List String} {r : Row} {k : String} (h : k ∉ cols) :
    rowHas (stringifyRow cols r) k = rowHas r k := by
  induction cols generalizing r with
  | nil => rfl
  | cons c cs ih =>
    have hc : c ≠ k := fun he => h (he ▸ List.mem_cons_self _ _)
    unfold stringifyRow
    rw [List.foldl_cons]
    have := @ih (rowSet r c (.str (pyStr (rowGet r c)))) (fun hm => h (List.mem_cons_of_mem _ hm))
    unfold stringifyRow at this
    rw [this, rowHas_set_ne r hc]

theorem stringifyRow_get_mem {cols : List String} {r : Row} {k : String} (h : k ∈ cols) :
    (∃ s, rowGet (stringifyRow cols r) k = .str s) ∧ rowHas (stringifyRow cols r) k = true := by
  induction cols generalizing r with
  | nil => exact absurd h (List.not_mem_nil k)
  | cons c cs ih =>
    unfold stringifyRow
    rw [List.foldl_cons]
    by_cases hm : k ∈ cs
    · have := @ih (rowSet r c (.str (pyStr (rowGet r c)))) hm
      unfold stringifyRow at this
      exact this
    · have hck : c = k := by
        rcases List.mem_cons.mp h with he | hm2
        · exact he.symm
        · exact absurd hm2 hm
      subst hck
      have hget := @stringifyRow_get_not_mem cs
        (rowSet r c (.str (pyStr (rowGet r c)))) c hm
      have hhas := @stringifyRow_has_not_mem cs
        (rowSet r c (.str (pyStr (rowGet r c)))) c hm
      unfold stringifyRow at hget hhas
      rw [hget, hhas, rowGet_set_self, rowHas_set_self]
      exact ⟨⟨pyStr (rowGet r c), rfl⟩, rfl⟩

theorem stringifyRow_keys_fixed {cols : List String} {r : Row}
    (hr : ∀ p ∈ r, normName p.1 = p.1) (hc : ∀ k ∈ cols, normName k = k) :
    ∀ p ∈ stringifyRow cols r, normName p.1 = p.1 := by
  induction cols generalizing r with
  | nil => exact hr
  | cons c cs ih =>
    unfold stringifyRow
    rw [List.foldl_cons]
    have hstep := @keys_fixed_rowSet r c (.str (pyStr (rowGet r c))) hr (hc c (List.mem_cons_self _ _))
    have := @ih (rowSet r c (.str (pyStr (rowGet r c)))) hstep
      (fun k hk => hc k (List.mem_cons_of_mem _ hk))
    unfold stringifyRow at this
    exact this

theorem shoot_stage_invariant {r5 : Row} {n : Int}
    (hkeys : ∀ p ∈ r5, normName p.1 = p.1)
    (hOcc : rowHas r5 "OCCURRED_ON_DATE" = true)
    (hOccG : rowGet r5 "OCCURRED_ON_DATE" = .null ∨
      ∃ ts, rowGet r5 "OCCURRED_ON_DATE" = .time ts true ∧ tsValid ts = true)
    (hY : rowHas r5 "YEAR" = true)
    (hYE : rowGet r5 "YEAR" = dtYear (rowGet r5 "OCCURRED_ON_DATE"))
    (hM : rowHas r5 "MONTH" = true)
    (hME : rowGet r5 "MONTH" = dtMonth (rowGet r5 "OCCURRED_ON_DATE"))
    (hH : rowHas r5 "HOUR" = true)
    (hHS : rowGet r5 "HOUR" = .null ∨ ∃ m, rowGet r5 "HOUR" = .int m) :
    let r6 := rowSet r5 "SHOOTING" (.int n)
    (∀ p ∈ r6, normName p.1 = p.1) ∧
    rowHas r6 "OCCURRED_ON_DATE" = true ∧
    (rowGet r6 "OCCURRED_ON_DATE" = .null ∨
      ∃ ts, rowGet r6 "OCCURRED_ON_DATE" = .time ts true ∧ tsValid ts = true) ∧
    rowHas r6 "YEAR" = true ∧
    rowGet r6 "YEAR" = dtYear (rowGet r6 "OCCURRED_ON_DATE") ∧
    rowHas r6 "MONTH" = true ∧
    rowGet r6 "MONTH" = dtMonth (rowGet r6 "OCCURRED_ON_DATE") ∧
    rowHas r6 "HOUR" = true ∧
    (rowGet r6 "HOUR" = .null ∨ ∃ m, rowGet r6 "HOUR" = .int m) ∧
    rowHas r6 "SHOOTING" = true ∧
    (∃ m, rowGet r6 "SHOOTING" = .int m) := by
  intro r6
  have nSO : ("SHOOTING" : String) ≠ "OCCURRED_ON_DATE" := by decide
  have nSY : ("SHOOTING" : String) ≠ "YEAR" := by decide
  have nSM : ("SHOOTING" : String) ≠ "MONTH" := by decide
  have nSH : ("SHOOTING" : String) ≠ "HOUR" := by decide
  refine ⟨keys_fixed_rowSet hkeys normName_shooting, ?_, ?_, ?_, ?_, ?_, ?_, ?_, ?_, ?_, ?_⟩
  · rw [rowHas_set_ne r5 nSO]; exact hOcc
  · rw [rowGet_set_ne r5 nSO]; exact hOccG
  · rw [rowHas_set_ne r5 nSY]; exact hY
  · rw [rowGet_set_ne r5 nSY, rowGet_set_ne r5 nSO]; exact hYE
  · rw [rowHas_set_ne r5 nSM]; exact hM
  · rw [rowGet_set_ne r5 nSM, rowGet_set_ne r5 nSO]; exact hME
  · rw [rowHas_set_ne r5 nSH]; exact hH
  · rw [rowGet_set_ne r5 nSH]; exact hHS
  · exact rowHas_set_self r5 _ _
  · exact ⟨n, rowGet_set_self r5 _ _⟩

theorem normalizeStructure_normalized {t u : Table} (h : normalizeStructure t = some u) :
    IsNormalized u := by
  have nYO : ("YEAR" : String) ≠ "OCCURRED_ON_DATE" := by decide
  have nMO : ("MONTH" : String) ≠ "OCCURRED_ON_DATE" := by decide
  have nMY : ("MONTH" : String) ≠ "YEAR" := by decide
  have nHO : ("HOUR" : String) ≠ "OCCURRED_ON_DATE" := by decide
  have nHY : ("HOUR" : String) ≠ "YEAR" := by decide
  have nHM : ("HOUR" : String) ≠ "MONTH" := by decide
  unfold normalizeStructure at h
  rw [Option.map_eq_some'] at h
  obtain ⟨w, hw, hu⟩ := h
  subst hu
  unfold normalizeHistCore at hw
  cases h1 : applyColReq "OCCURRED_ON_DATE" histTsCell (renameCols t) with
  | none => rw [h1] at hw; simp at hw
  | some t1 =>
  rw [h1] at hw
  simp only [Option.bind_eq_bind, Option.some_bind] at hw
  cases h2 : deriveCol "OCCURRED_ON_DATE" "YEAR" dtYear t1 with
  | none => rw [h2] at hw; simp at hw
  | some t2 =>
  rw [h2] at hw
  simp only [Option.some_bind] at hw
  cases h3 : deriveCol "OCCURRED_ON_DATE" "MONTH" dtMonth t2 with
  | none => rw [h3] at hw; simp at hw
  | some t3 =>
  rw [h3] at hw
  simp only [Option.some_bind] at hw
  cases h4 : applyColReq "HOUR" pyToNumericCell t3 with
  | none => rw [h4] at hw; simp at hw
  | some t4 =>
  rw [h4] at hw
  simp only [Option.some_bind] at hw
  cases h5 : applyColOptReq "YEAR" asTypeInt64Cell t4 with
  | none => rw [h5] at hw; simp at hw
  | some t5 =>
  rw [h5] at hw
  simp only [Option.some_bind] at hw
  -- hw : shootingStep t5 = some w
  have P0 : ∀ r ∈ renameCols t, ∀ p ∈ r, normName p.1 = p.1 := by
    intro r hr
    unfold renameCols at hr
    rw [List.mem_map] at hr
    obtain ⟨q, -, hq⟩ := hr
    exact hq ▸ renameRow_keys q
  obtain ⟨hc1, ht1⟩ := applyColReq_eq_some h1
  obtain ⟨hc2, ht2⟩ := deriveCol_eq_some h2
  obtain ⟨hc3, ht3⟩ := deriveCol_eq_some h3
  obtain ⟨hc4, ht4⟩ := applyColReq_eq_some h4
  obtain ⟨hc5, hf5⟩ := applyColOptReq_eq_some h5
  have P1 : ∀ r ∈ t1, (∀ p ∈ r, normName p.1 = p.1) ∧ rowHas r "OCCURRED_ON_DATE" = true ∧
      (rowGet r "OCCURRED_ON_DATE" = .null ∨
        ∃ ts, rowGet r "OCCURRED_ON_DATE" = .time ts true ∧ tsValid ts = true) := by
    intro r hr
    rw [ht1, List.mem_map] at hr
    obtain ⟨r0, hr0, he⟩ := hr
    subst he
    exact ⟨keys_fixed_rowSet (P0 r0 hr0) normName_occ, rowHas_set_self _ _ _,
      by rw [rowGet_set_self]; exact histTsCell_good _⟩
  have P2 : ∀ r ∈ t2, (∀ p ∈ r, normName p.1 = p.1) ∧ rowHas r "OCCURRED_ON_DATE" = true ∧
      (rowGet r "OCCURRED_ON_DATE" = .null ∨
        ∃ ts, rowGet r "OCCURRED_ON_DATE" = .time ts true ∧ tsValid ts = true) ∧
      rowHas r "YEAR" = true ∧
      rowGet r "YEAR" = dtYear (rowGet r "OCCURRED_ON_DATE") := by
    intro r hr
    rw [ht2, List.mem_map] at hr
    obtain ⟨r1, hr1, he⟩ := hr
    subst he
    obtain ⟨k1, ho1, hg1⟩ := P1 r1 hr1
    refine ⟨keys_fixed_rowSet k1 normName_year, ?_, ?_, rowHas_set_self _ _ _, ?_⟩
    · rw [rowHas_set_ne r1 nYO]; exact ho1
    · rw [rowGet_set_ne r1 nYO]; exact hg1
    · rw [rowGet_set_self, rowGet_set_ne r1 nYO]
  have P3 : ∀ r ∈ t3, (∀ p ∈ r, normName p.1 = p.1) ∧ rowHas r "OCCURRED_ON_DATE" = true ∧
      (rowGet r "OCCURRED_ON_DATE" = .null ∨
        ∃ ts, rowGet r "OCCURRED_ON_DATE" = .time ts true ∧ tsValid ts = true) ∧
      rowHas r "YEAR" = true ∧
      rowGet r "YEAR" = dtYear (rowGet r "OCCURRED_ON_DATE") ∧
      rowHas r "MONTH" = true ∧
      rowGet r "MONTH" = dtMonth (rowGet r "OCCURRED_ON_DATE") := by
    intro r hr
    rw [ht3, List.mem_map] at hr
    obtain ⟨r2, hr2, he⟩ := hr
    subst he
    obtain ⟨k2, ho2, hg2, hy2, hye2⟩ := P2 r2 hr2
    refine ⟨keys_fixed_rowSet k2 normName_month, ?_, ?_, ?_, ?_, rowHas_set_self _ _ _, ?_⟩
    · rw [rowHas_set_ne r2 nMO]; exact ho2
    · rw [rowGet_set_ne r2 nMO]; exact hg2
    · rw [rowHas_set_ne r2 nMY]; exact hy2
    · rw [rowGet_set_ne r2 nMY, rowGet_set_ne r2 nMO]; exact hye2
    · rw [rowGet_set_self, rowGet_set_ne r2 nMO]
  have P4 : ∀ r ∈ t4, (∀ p ∈ r, normName p.1 = p.1) ∧ rowHas r "OCCURRED_ON_DATE" = true ∧
      (rowGet r "OCCURRED_ON_DATE" = .null ∨
        ∃ ts, rowGet r "OCCURRED_ON_DATE" = .time ts true ∧ tsValid ts = true) ∧
      rowHas r "YEAR" = true ∧
      rowGet r "YEAR" = dtYear (rowGet r "OCCURRED_ON_DATE") ∧
      rowHas r "MONTH" = true ∧
      rowGet r "MONTH" = dtMonth (rowGet r "OCCURRED_ON_DATE") ∧
      rowHas r "HOUR" = true ∧
      (rowGet r "HOUR" = .null ∨ ∃ m, rowGet r "HOUR" = .int m) := by
    intro r hr
    rw [ht4, List.mem_map] at hr
    obtain ⟨r3, hr3, he⟩ := hr
    subst he
    obtain ⟨k3, ho3, hg3, hy3, hye3, hm3, hme3⟩ := P3 r3 hr3
    refine ⟨keys_fixed_rowSet k3 normName_hour, ?_, ?_, ?_, ?_, ?_, ?_,
      rowHas_set_self _ _ _, ?_⟩
    · rw [rowHas_set_ne r3 nHO]; exact ho3
    · rw [rowGet_set_ne r3 nHO]; exact hg3
    · rw [rowHas_set_ne r3 nHY]; exact hy3
    · rw [rowGet_set_ne r3 nHY, rowGet_set_ne r3 nHO]; exact hye3
    · rw [rowHas_set_ne r3 nHM]; exact hm3
    · rw [rowGet_set_ne r3 nHM, rowGet_set_ne r3 nHO]; exact hme3
    · rw [rowGet_set_self]; exact pyToNumericCell_shape _
  have P5 : ∀ r ∈ t5, (∀ p ∈ r, normName p.1 = p.1) ∧ rowHas r "OCCURRED_ON_DATE" = true ∧
      (rowGet r "OCCURRED_ON_DATE" = .null ∨
        ∃ ts, rowGet r "OCCURRED_ON_DATE" = .time ts true ∧ tsValid ts = true) ∧
      rowHas r "YEAR" = true ∧
      rowGet r "YEAR" = dtYear (rowGet r "OCCURRED_ON_DATE") ∧
      rowHas r "MONTH" = true ∧
      rowGet r "MONTH" = dtMonth (rowGet r "OCCURRED_ON_DATE") ∧
      rowHas r "HOUR" = true ∧
      (rowGet r "HOUR" = .null ∨ ∃ m, rowGet r "HOUR" = .int m) := by
    intro r hr
    obtain ⟨r4, hr4, hstep⟩ := forall₂_mem_right hf5 r hr
    obtain ⟨k4, ho4, hg4, hy4, hye4, hm4, hme4, hh4, hhs4⟩ := P4 r4 hr4
    have hyshape : rowGet r4 "YEAR" = Value.null ∨ ∃ m, rowGet r4 "YEAR" = Value.int m := by
      rw [hye4]
      rcases hg4 with hnull | ⟨ts, hts, -⟩
      · rw [hnull]; left; rfl
      · rw [hts]; right; exact ⟨(ts.year : Int), rfl⟩
    have hre : r = r4 := by
      rcases hyshape with hsh | ⟨m, hsh⟩
      · rw [hsh] at hstep
        rw [show asTypeInt64Cell Value.null = some Value.null from rfl, Option.map_some'] at hstep
        have := Option.some.inj hstep
        rw [← this, ← hsh]
        exact rowSet_rowGet_self hy4
      · rw [hsh] at hstep
        rw [show asTypeInt64Cell (Value.int m) = some (Value.int m) from rfl,
          Option.map_some'] at hstep
        have := Option.some.inj hstep
        rw [← this, ← hsh]
        exact rowSet_rowGet_self hy4
    rw [hre]
    exact ⟨k4, ho4, hg4, hy4, hye4, hm4, hme4, hh4, hhs4⟩
  -- row counts stay positive through the stages
  have l0 : renameCols t ≠ [] := hasCol_ne_nil hc1
  have l1 : t1 ≠ [] := by rw [ht1]; simpa using l0
  have l2 : t2 ≠ [] := by rw [ht2]; simpa using l1
  have l3 : t3 ≠ [] := by rw [ht3]; simpa using l2
  have l4 : t4 ≠ [] := by rw [ht4]; simpa using l3
  have l5 : t5 ≠ [] := by
    have hlen := List.Forall₂.length_eq hf5
    intro he
    rw [he, List.length_nil] at hlen
    exact l4 (List.length_eq_zero.mp hlen)
  -- the shooting step
  have hP6 : (∀ r ∈ w, (∀ p ∈ r, normName p.1 = p.1) ∧ rowHas r "OCCURRED_ON_DATE" = true ∧
      (rowGet r "OCCURRED_ON_DATE" = .null ∨
        ∃ ts, rowGet r "OCCURRED_ON_DATE" = .time ts true ∧ tsValid ts = true) ∧
      rowHas r "YEAR" = true ∧
      rowGet r "YEAR" = dtYear (rowGet r "OCCURRED_ON_DATE") ∧
      rowHas r "MONTH" = true ∧
      rowGet r "MONTH" = dtMonth (rowGet r "OCCURRED_ON_DATE") ∧
      rowHas r "HOUR" = true ∧
      (rowGet r "HOUR" = .null ∨ ∃ m, rowGet r "HOUR" = .int m) ∧
      rowHas r "SHOOTING" = true ∧
      (∃ m, rowGet r "SHOOTING" = .int m)) ∧ w ≠ [] := by
    unfold shootingStep at hw
    by_cases hsc : hasCol t5 "SHOOTING" = true
    · rw [if_pos hsc] at hw
      obtain ⟨-, hf6⟩ := applyColOptReq_eq_some hw
      constructor
      · intro r hr
        obtain ⟨r5, hr5, hstep⟩ := forall₂_mem_right hf6 r hr
        rw [Option.map_eq_some'] at hstep
        obtain ⟨v', hv', hre⟩ := hstep
        obtain ⟨n, hn⟩ := shootingCell_shape hv'
        subst hn
        obtain ⟨k5, ho5, hg5, hy5, hye5, hm5, hme5, hh5, hhs5⟩ := P5 r5 hr5
        rw [← hre]
        exact shoot_stage_invariant k5 ho5 hg5 hy5 hye5 hm5 hme5 hh5 hhs5
      · have hlen := List.Forall₂.length_eq hf6
        intro he
        rw [he, List.length_nil] at hlen
        exact l5 (List.length_eq_zero.mp hlen)
    · rw [if_neg hsc] at hw
      have hwe : w = setColConst "SHOOTING" (.int 0) t5 := (Option.some.inj hw).symm
      constructor
      · intro r hr
        rw [hwe] at hr
        unfold setColConst at hr
        rw [List.mem_map] at hr
        obtain ⟨r5, hr5, hre⟩ := hr
        obtain ⟨k5, ho5, hg5, hy5, hye5, hm5, hme5, hh5, hhs5⟩ := P5 r5 hr5
        rw [← hre]
        exact shoot_stage_invariant k5 ho5 hg5 hy5 hye5 hm5 hme5 hh5 hhs5
      · rw [hwe]
        unfold setColConst
        simpa using l5
  obtain ⟨P6, hw_ne⟩ := hP6
  -- the object-column stringification
  have notObj : ∀ k : String, (∀ r ∈ w, isObjVal (rowGet r k) = false) → k ∉ objColumns w := by
    intro k hk hmem
    have hobj := (List.mem_filter.mp hmem).2
    obtain ⟨r, hr, hov⟩ := isObjCol_iff.mp hobj
    rw [hk r hr] at hov
    exact absurd hov (by simp)
  have hOccNM : "OCCURRED_ON_DATE" ∉ objColumns w := by
    apply notObj
    intro r hr
    obtain ⟨-, -, hg, -⟩ := P6 r hr
    rcases hg with hnull | ⟨ts, hts, -⟩
    · rw [hnull]; rfl
    · rw [hts]; rfl
  have hYearNM : "YEAR" ∉ objColumns w := by
    apply notObj
    intro r hr
    obtain ⟨-, -, hg, -, hye, -⟩ := P6 r hr
    rw [hye]
    rcases hg with hnull | ⟨ts, hts, -⟩
    · rw [hnull]; rfl
    · rw [hts]; rfl
  have hMonthNM : "MONTH" ∉ objColumns w := by
    apply notObj
    intro r hr
    obtain ⟨-, -, hg, -, -, -, hme, -⟩ := P6 r hr
    rw [hme]
    rcases hg with hnull | ⟨ts, hts, -⟩
    · rw [hnull]; rfl
    · rw [hts]; rfl
  have hHourNM : "HOUR" ∉ objColumns w := by
    apply notObj
    intro r hr
    obtain ⟨-, -, -, -, -, -, -, -, hhs, -⟩ := P6 r hr
    rcases hhs with hnull | ⟨m, hm⟩
    · rw [hnull]; rfl
    · rw [hm]; rfl
  have hShootNM : "SHOOTING" ∉ objColumns w := by
    apply notObj
    intro r hr
    obtain ⟨-, -, -, -, -, -, -, -, -, -, m, hm⟩ := P6 r hr
    rw [hm]; rfl
  have hColsFixed : ∀ k ∈ objColumns w, normName k = k := by
    intro k hk
    have hka : k ∈ allKeys w := (List.mem_filter.mp hk).1
    unfold allKeys at hka
    rw [List.mem_flatMap] at hka
    obtain ⟨r, hr, hkr⟩ := hka
    rw [List.mem_map] at hkr
    obtain ⟨p, hp, hpk⟩ := hkr
    rw [← hpk]
    exact (P6 r hr).1 p hp
  -- membership in the final table
  have humem : ∀ r' ∈ stringifyObjects w, ∃ r ∈ w, r' = stringifyRow (objColumns w) r := by
    intro r' hr'
    unfold stringifyObjects at hr'
    rw [List.mem_map] at hr'
    obtain ⟨r, hr, he⟩ := hr'
    exact ⟨r, hr, he.symm⟩
  refine ⟨?_, ?_, ?_, ?_, ?_, ?_, ?_, ?_, ?_, ?_, ?_, ?_, ?_⟩
  · -- nonempty
    unfold stringifyObjects
    simpa using hw_ne
  · -- keysFixed
    intro r' hr'
    obtain ⟨r, hr, he⟩ := humem r' hr'
    rw [he]
    exact renameRow_eq_self (stringifyRow_keys_fixed (P6 r hr).1 hColsFixed)
  · -- hasOcc
    intro r' hr'
    obtain ⟨r, hr, he⟩ := humem r' hr'
    rw [he, stringifyRow_has_not_mem hOccNM]
    exact (P6 r hr).2.1
  · -- hasYear
    intro r' hr'
    obtain ⟨r, hr, he⟩ := humem r' hr'
    rw [he, stringifyRow_has_not_mem hYearNM]
    exact (P6 r hr).2.2.2.1
  · -- hasMonth
    intro r' hr'
    obtain ⟨r, hr, he⟩ := humem r' hr'
    rw [he, stringifyRow_has_not_mem hMonthNM]
    exact (P6 r hr).2.2.2.2.2.1
  · -- hasHour
    intro r' hr'
    obtain ⟨r, hr, he⟩ := humem r' hr'
    rw [he, stringifyRow_has_not_mem hHourNM]
    exact (P6 r hr).2.2.2.2.2.2.2.1
  · -- hasShooting
    intro r' hr'
    obtain ⟨r, hr, he⟩ := humem r' hr'
    rw [he, stringifyRow_has_not_mem hShootNM]
    exact (P6 r hr).2.2.2.2.2.2.2.2.2.1
  · -- occGood
    intro r' hr'
    obtain ⟨r, hr, he⟩ := humem r' hr'
    rw [he, stringifyRow_get_not_mem hOccNM]
    exact (P6 r hr).2.2.1
  · -- yearDeriv
    intro r' hr'
    obtain ⟨r, hr, he⟩ := humem r' hr'
    rw [he, stringifyRow_get_not_mem hYearNM, stringifyRow_get_not_mem hOccNM]
    exact (P6 r hr).2.2.2.2.1
  · -- monthDeriv
    intro r' hr'
    obtain ⟨r, hr, he⟩ := humem r' hr'
    rw [he, stringifyRow_get_not_mem hMonthNM, stringifyRow_get_not_mem hOccNM]
    exact (P6 r hr).2.2.2.2.2.2.1
  · -- hourNum
    intro r' hr'
    obtain ⟨r, hr, he⟩ := humem r' hr'
    rw [he, stringifyRow_get_not_mem hHourNM]
    exact (P6 r hr).2.2.2.2.2.2.2.2.1
  · -- shootInt
    intro r' hr'
    obtain ⟨r, hr, he⟩ := humem r' hr'
    rw [he, stringifyRow_get_not_mem hShootNM]
    exact (P6 r hr).2.2.2.2.2.2.2.2.2.2
  · -- objStr
    intro k hobj r' hr'
    obtain ⟨r, hr, he⟩ := humem r' hr'
    by_cases hk : k ∈ objColumns w
    · obtain ⟨⟨s, hget⟩, hhass⟩ := @stringifyRow_get_mem (objColumns w) r k hk
      rw [he]
      exact ⟨hhass, s, hget⟩
    · exfalso
      obtain ⟨r'', hr'', hov⟩ := isObjCol_iff.mp hobj
      obtain ⟨q, hq, heq⟩ := humem r'' hr''
      rw [heq, stringifyRow_get_not_mem hk] at hov
      have hq_has : rowHas q k = true :=
        rowGet_ne_null_rowHas (isObjVal_ne_null hov)
      have : k ∈ objColumns w := by
        unfold objColumns
        rw [List.mem_filter]
        exact ⟨mem_allKeys_of hq hq_has, isObjCol_iff.mpr ⟨q, hq, hov⟩⟩
      exact hk this

/-! ### Claim C3: the Schema Normalizer is idempotent -/

/-- C3: the Schema Normalizer is idempotent: for every tabular structure,
applying the normalization (column-name upper-casing/trimming, timestamp
parsing, year/month/hour derivation, shooting coercion, string coercion of
non-primitive columns) twice yields the same result as applying it once. -/
theorem C3_schema_normalizer_idempotent (t : Table) :
    (normalizeStructure t).bind normalizeStructure = normalizeStructure t := by
  cases h : normalizeStructure t with
  | none => rfl
  | some u =>
    simp only [Option.some_bind]
    exact normalizeStructure_of_normalized (normalizeStructure_normalized h)

/-! ### Row counts through normalisation -/

theorem applyColReq_length {k : String} {f : Value → Value} {t t' : Table}
    (h : applyColReq k f t = some t') : t'.length = t.length := by
  rw [(applyColReq_eq_some h).2, List.length_map]

theorem deriveCol_length {src dst : String} {f : Value → Value} {t t' : Table}
    (h : deriveCol src dst f t = some t') : t'.length = t.length := by
  rw [(deriveCol_eq_some h).2, List.length_map]

theorem applyColOptReq_length {k : String} {f : Value → Option Value} {t t' : Table}
    (h : applyColOptReq k f t = some t') : t'.length = t.length :=
  (List.Forall₂.length_eq (applyColOptReq_eq_some h).2).symm

theorem shootingStep_length {t t' : Table} (h : shootingStep t = some t') :
    t'.length = t.length := by
  unfold shootingStep at h
  split at h
  · exact applyColOptReq_length h
  · have := Option.some.inj h
    rw [← this]
    unfold setColConst
    rw [List.length_map]

theorem normalizeHistCore_length {t t' : Table} (h : normalizeHistCore t = some t') :
    t'.length = t.length := by
  unfold normalizeHistCore at h
  cases h1 : applyColReq "OCCURRED_ON_DATE" histTsCell t with
  | none => rw [h1] at h; simp at h
  | some t1 =>
  rw [h1] at h
  simp only [Option.bind_eq_bind, Option.some_bind] at h
  cases h2 : deriveCol "OCCURRED_ON_DATE" "YEAR" dtYear t1 with
  | none => rw [h2] at h; simp at h
  | some t2 =>
  rw [h2] at h
  simp only [Option.some_bind] at h
  cases h3 : deriveCol "OCCURRED_ON_DATE" "MONTH" dtMonth t2 with
  | none => rw [h3] at h; simp at h
  | some t3 =>
  rw [h3] at h
  simp only [Option.some_bind] at h
  cases h4 : applyColReq "HOUR" pyToNumericCell t3 with
  | none => rw [h4] at h; simp at h
  | some t4 =>
  rw [h4] at h
  simp only [Option.some_bind] at h
  cases h5 : applyColOptReq "YEAR" asTypeInt64Cell t4 with
  | none => rw [h5] at h; simp at h
  | some t5 =>
  rw [h5] at h
  simp only [Option.some_bind] at h
  rw [shootingStep_length h, applyColOptReq_length h5, applyColReq_length h4,
    deriveCol_length h3, deriveCol_length h2, applyColReq_length h1]

theorem stringifyObjects_length (t : Table) : (stringifyObjects t).length = t.length := by
  unfold stringifyObjects
  rw [List.length_map]

theorem renameCols_length (t : Table) : (renameCols t).length = t.length := by
  unfold renameCols
  rw [List.length_map]

theorem normalizeStructure_length {t t' : Table} (h : normalizeStructure t = some t') :
    t'.length = t.length := by
  unfold normalizeStructure at h
  rw [Option.map_eq_some'] at h
  obtain ⟨w, hw, he⟩ := h
  rw [← he, stringifyObjects_length, normalizeHistCore_length hw, renameCols_length]

theorem joinTables_length (ts : List Table) :
    (joinTables ts).length = (ts.map List.length).sum := by
  unfold joinTables
  induction ts with
  | nil => rfl
  | cons a ts ih =>
    rw [List.flatMap_cons, List.length_append, List.map_cons, List.sum_cons]
    simp [ih]

/-! ### Claim C1: the watermark merge -/

theorem filterNewer_none_latest (lt : Table) : filterNewer none lt = some [] := by
  induction lt with
  | nil => rfl
  | cons r rs ih =>
    unfold filterNewer
    rw [show cmpNewer (rowGet r "OCCURRED_ON_DATE") none = some false from rfl]
    simp only [Option.bind_eq_bind, Option.some_bind, ih]
    rfl

theorem filterNewer_eq_filter {latest : Option (Timestamp × Bool)} {lt kept : Table}
    (h : filterNewer latest lt = some kept) :
    kept = lt.filter (fun r => (cmpNewer (rowGet r "OCCURRED_ON_DATE") latest).getD false) := by
  induction lt generalizing kept with
  | nil =>
    unfold filterNewer at h
    rw [List.filter_nil]
    exact (Option.some.inj h).symm
  | cons r rs ih =>
    unfold filterNewer at h
    cases hb : cmpNewer (rowGet r "OCCURRED_ON_DATE") latest with
    | none => rw [hb] at h; simp at h
    | some b =>
      rw [hb] at h
      simp only [Option.bind_eq_bind, Option.some_bind] at h
      cases hrest : filterNewer latest rs with
      | none => rw [hrest] at h; simp at h
      | some rest =>
        rw [hrest] at h
        simp only [Option.some_bind] at h
        have hk := Option.some.inj h
        rw [List.filter_cons, ← ih hrest, hb]
        cases b with
        | true => simp [← hk]
        | false => simp [← hk]

/-- C1 (amended): `latest_date` is the maximum non-null `occurred_at` of
the baseline; whenever the merge step completes, the canonical table is
the baseline followed by exactly the live rows whose comparison against
`latest_date` is defined and true; and when the baseline's `occurred_at`
values are all null, `latest_date` is NaT, every comparison against it is
False, and every live record is discarded, so the table equals the
baseline (not, as the spec says, every live record counting as newer). -/
theorem C1_watermark_merge_amended :
    (∀ df lt m, mergeLive df lt = some m →
      m = df ++ lt.filter (fun r => (cmpNewer (rowGet r "OCCURRED_ON_DATE")
        (tsMax (colCells df "OCCURRED_ON_DATE"))).getD false)) ∧
    (∀ df lt, tsMax (colCells df "OCCURRED_ON_DATE") = none → mergeLive df lt = some df) := by
  constructor
  · intro df lt m h
    unfold mergeLive at h
    cases hk : filterNewer (tsMax (colCells df "OCCURRED_ON_DATE")) lt with
    | none => rw [hk] at h; simp at h
    | some kept =>
      rw [hk] at h
      simp only [Option.bind_eq_bind, Option.some_bind] at h
      have hm := Option.some.inj h
      rw [← filterNewer_eq_filter hk]
      by_cases he : kept.isEmpty
      · rw [← hm, if_pos he]
        rw [List.isEmpty_iff] at he
        rw [he, List.append_nil]
      · rw [← hm, if_neg he]
  · intro df lt h
    unfold mergeLive
    rw [h, filterNewer_none_latest]
    rfl

/-- C1 witness: a run of the amended merge on a concrete baseline and
live feed, keeping exactly the strictly newer live row. -/
theorem C1_watermark_merge_amended_witness :
    mergeLive [[("OCCURRED_ON_DATE", Value.time ⟨2020, 1, 1, 0, 0, 0⟩ true)]]
        [[("OCCURRED_ON_DATE", Value.time ⟨2021, 5, 5, 0, 0, 0⟩ true)],
         [("OCCURRED_ON_DATE", Value.time ⟨2019, 5, 5, 0, 0, 0⟩ true)]] =
      some [[("OCCURRED_ON_DATE", Value.time ⟨2020, 1, 1, 0, 0, 0⟩ true)],
            [("OCCURRED_ON_DATE", Value.time ⟨2021, 5, 5, 0, 0, 0⟩ true)]] ∧
    [[("OCCURRED_ON_DATE", Value.time ⟨2020, 1, 1, 0, 0, 0⟩ true)],
     [("OCCURRED_ON_DATE", Value.time ⟨2021, 5, 5, 0, 0, 0⟩ true)]] =
      [[("OCCURRED_ON_DATE", Value.time ⟨2020, 1, 1, 0, 0, 0⟩ true)]] ++
        ([[("OCCURRED_ON_DATE", Value.time ⟨2021, 5, 5, 0, 0, 0⟩ true)],
          [("OCCURRED_ON_DATE", Value.time ⟨2019, 5, 5, 0, 0, 0⟩ true)]].filter
          (fun r => (cmpNewer (rowGet r "OCCURRED_ON_DATE")
            (tsMax (colCells [[("OCCURRED_ON_DATE", Value.time ⟨2020, 1, 1, 0, 0, 0⟩ true)]]
              "OCCURRED_ON_DATE"))).getD false)) :=
  ⟨by decide, C1_watermark_merge_amended.1 _ _ _ (by decide)⟩

/-- C1 counterexample: on an all-null baseline the code's merge discards
a strictly-dated live record (NaT comparisons are False), while the
spec's negative-infinity reading appends it. -/
theorem C1_watermark_merge_counterexample :
    mergeLive [[("OCCURRED_ON_DATE", Value.null)]]
        [[("OCCURRED_ON_DATE", Value.time ⟨2024, 1, 1, 0, 0, 0⟩ true)]] =
      some [[("OCCURRED_ON_DATE", Value.null)]] ∧
    specMergeLive [[("OCCURRED_ON_DATE", Value.null)]]
        [[("OCCURRED_ON_DATE", Value.time ⟨2024, 1, 1, 0, 0, 0⟩ true)]] =
      [[("OCCURRED_ON_DATE", Value.null)],
       [("OCCURRED_ON_DATE", Value.time ⟨2024, 1, 1, 0, 0, 0⟩ true)]] ∧
    ([[("OCCURRED_ON_DATE", Value.null)]] : Table) ≠
      [[("OCCURRED_ON_DATE", Value.null)],
       [("OCCURRED_ON_DATE", Value.time ⟨2024, 1, 1, 0, 0, 0⟩ true)]] :=
  ⟨by decide, by decide, by decide⟩

/-! ### Claim C5: row retention through normalisation -/

/-- C5 (amended): normalisation never drops a row (the row count of a
structure is preserved), a row whose `occurred_at` fails to parse is
retained with a null timestamp and null YEAR and MONTH, and the baseline
row count is the sum of the row counts of the successfully loaded
sources; HOUR, however, is independently coerced from the source HOUR field and is
not nulled by an unparsable `occurred_at`. -/
theorem C5_row_retention_amended :
    (∀ t u, normalizeStructure t = some u → u.length = t.length ∧
      ∀ r ∈ u, rowGet r "OCCURRED_ON_DATE" = .null →
        rowGet r "YEAR" = .null ∧ rowGet r "MONTH" = .null) ∧
    (∀ ts : List Table, (joinTables ts).length = (ts.map List.length).sum) := by
  constructor
  · intro t u h
    refine ⟨normalizeStructure_length h, ?_⟩
    intro r hr hnull
    have hn := normalizeStructure_normalized h
    rw [hn.yearDeriv r hr, hn.monthDeriv r hr, hnull]
    exact ⟨rfl, rfl⟩
  · exact joinTables_length

/-- C5 witness: the amended row-retention facts at a concrete
single-row structure with an unparsable timestamp. -/
theorem C5_row_retention_amended_witness :
    normalizeStructure [[("OCCURRED_ON_DATE", Value.str "bad"), ("HOUR", Value.null)]] =
      some [[("OCCURRED_ON_DATE", Value.null), ("HOUR", Value.null), ("YEAR", Value.null),
             ("MONTH", Value.null), ("SHOOTING", Value.int 0)]] ∧
    ([[("OCCURRED_ON_DATE", Value.null), ("HOUR", Value.null), ("YEAR", Value.null),
       ("MONTH", Value.null), ("SHOOTING", Value.int 0)]] : Table).length =
      ([[("OCCURRED_ON_DATE", Value.str "bad"), ("HOUR", Value.null)]] : Table).length :=
  ⟨by decide, (C5_row_retention_amended.1 _ _ (by decide)).1⟩

/-- C5 counterexample: a row with an unparsable `occurred_at` but a
numeric HOUR keeps its HOUR value after normalisation — HOUR is not
nulled as the claim states. -/
theorem C5_row_retention_counterexample :
    normalizeStructure [[("OCCURRED_ON_DATE", Value.str "bad"), ("HOUR", Value.str "5")]] =
      some [[("OCCURRED_ON_DATE", Value.null), ("HOUR", Value.int 5), ("YEAR", Value.null),
             ("MONTH", Value.null), ("SHOOTING", Value.int 0)]] ∧
    rowGet [("OCCURRED_ON_DATE", Value.null), ("HOUR", Value.int 5), ("YEAR", Value.null),
            ("MONTH", Value.null), ("SHOOTING", Value.int 0)] "HOUR" = Value.int 5 ∧
    Value.int 5 ≠ Value.null :=
  ⟨by decide, by decide, by decide⟩

/-! ### Claim C2: the shooting-flag mapping -/

/-- C2 (amended): the shooting mapping is total on the stated domain —
Y maps to 1, N, the empty string, textual "nan" and NaN-null map to 0,
and on the historical path a missing SHOOTING column becomes the
constant 0 for every row.  An unmapped value, however, is passed to
integer conversion unchanged (it can yield an integer outside 0/1, or
raise on a non-numeric string), and on the live path a missing SHOOTING
column aborts the live step instead of defaulting to 0; every value the
normalisation does produce is an integer. -/
theorem C2_shooting_mapping_amended :
    shootingCell (.str "Y") = some (.int 1) ∧
    shootingCell (.str "N") = some (.int 0) ∧
    shootingCell (.str "") = some (.int 0) ∧
    shootingCell (.str "nan") = some (.int 0) ∧
    shootingCell .null = some (.int 0) ∧
    (∀ t, hasCol t "SHOOTING" = false →
      shootingStep t = some (setColConst "SHOOTING" (.int 0) t) ∧
      ∀ r ∈ setColConst "SHOOTING" (.int 0) t, rowGet r "SHOOTING" = .int 0) ∧
    (∀ v v', shootingCell v = some v' → ∃ n, v' = .int n) := by
  refine ⟨by decide, by decide, by decide, by decide, by decide, ?_, ?_⟩
  · intro t h
    constructor
    · unfold shootingStep
      rw [h]
      rfl
    · intro r hr
      unfold setColConst at hr
      rw [List.mem_map] at hr
      obtain ⟨q, -, hq⟩ := hr
      rw [← hq, rowGet_set_self]
  · intro v v' h
    exact shootingCell_shape h

/-- C2 witness: the missing-column branch and the shape fact of the
amended claim at concrete inputs. -/
theorem C2_shooting_mapping_amended_witness :
    shootingStep [[("HOUR", Value.int 1)]] =
      some (setColConst "SHOOTING" (Value.int 0) [[("HOUR", Value.int 1)]]) ∧
    (∃ n, Value.int 7 = Value.int n) :=
  ⟨(C2_shooting_mapping_amended.2.2.2.2.2.1 _ (by decide)).1,
   C2_shooting_mapping_amended.2.2.2.2.2.2 (Value.str "7") _ (by decide)⟩

/-- C2 counterexample: the unmapped value "2" is not defaulted to 0 but
converted to the integer 2 (outside the 0/1 range), and on the live path
a table without a SHOOTING column makes the live normalisation fail
instead of filling the column with 0. -/
theorem C2_shooting_mapping_counterexample :
    shootingCell (Value.str "2") = some (Value.int 2) ∧
    Value.int 2 ≠ Value.int 0 ∧
    Value.int 2 ≠ Value.int 1 ∧
    liveNormalize [[("OCCURRED_ON_DATE", Value.str "2024-01-01 00:00:00"),
                    ("HOUR", Value.int 1)]] = none :=
  ⟨by decide, by decide, by decide, by decide⟩

/-! ### Claim C4: timestamp parsing -/

/-- C4 (amended): on the historical path every occurrence of a zero UTC
offset is stripped, parsing forces UTC, and every cell becomes either
null or a valid UTC-aware timestamp, with unparsable values mapped to
null; on the live path (line 119) there is no stripping and no
`utc=True`, so a parsed value is tz-aware exactly when the source string
carried an explicit offset, and a value without one parses to a naive
timestamp; unparsable live values also map to null. -/
theorem C4_timestamp_parsing_amended :
    (∀ v, histTsCell v = .null ∨ ∃ ts, histTsCell v = .time ts true ∧ tsValid ts = true) ∧
    (∀ s ts a, pyToDatetimeCell false (.str s) = .time ts a → parseTsStr s = some (ts, a)) ∧
    (∀ s, parseTsStr s = none → pyToDatetimeCell false (.str s) = .null) ∧
    (∀ s, parseTsStr (trimStr ⟨stripPlus00 s.data⟩) = none → histTsCell (.str s) = .null) := by
  refine ⟨histTsCell_good, ?_, ?_, ?_⟩
  · intro s ts a h
    rw [pyToDatetimeCell_str] at h
    cases hp : parseTsStr s with
    | none => rw [hp] at h; exact absurd h (by simp)
    | some p =>
      obtain ⟨t', off⟩ := p
      rw [hp] at h
      simp only [Bool.false_or] at h
      injection h with h1 h2
      rw [h1, h2]
  · intro s h
    rw [pyToDatetimeCell_str, h]
  · intro s h
    unfold histTsCell
    rw [show pyStr (Value.str s) = s from rfl, pyToDatetimeCell_str, h]

/-- C4 witness: the amended parsing facts at concrete strings — a naive
live parse, an offset-carrying live parse, and unparsable values. -/
theorem C4_timestamp_parsing_amended_witness :
    parseTsStr "2023-01-05 03:04:05" = some (⟨2023, 1, 5, 3, 4, 5⟩, false) ∧
    parseTsStr "2023-01-05T03:04:05+00" = some (⟨2023, 1, 5, 3, 4, 5⟩, true) ∧
    pyToDatetimeCell false (.str "not a date") = Value.null ∧
    histTsCell (.str "also not a date") = Value.null :=
  ⟨C4_timestamp_parsing_amended.2.1 "2023-01-05 03:04:05" ⟨2023, 1, 5, 3, 4, 5⟩ false (by decide),
   C4_timestamp_parsing_amended.2.1 "2023-01-05T03:04:05+00" ⟨2023, 1, 5, 3, 4, 5⟩ true (by decide),
   C4_timestamp_parsing_amended.2.2.1 "not a date" (by decide),
   C4_timestamp_parsing_amended.2.2.2 "also not a date" (by decide)⟩

/-- C4 counterexample: the same offset-less timestamp string parses
UTC-aware on the historical path but naive on the live path, so the
claim that every source's column is parsed into a UTC-aware timestamp
is false for the live feed. -/
theorem C4_timestamp_parsing_counterexample :
    pyToDatetimeCell false (Value.str "2023-01-05 03:04:05") =
      Value.time ⟨2023, 1, 5, 3, 4, 5⟩ false ∧
    histTsCell (Value.str "2023-01-05 03:04:05") = Value.time ⟨2023, 1, 5, 3, 4, 5⟩ true ∧
    Value.time ⟨2023, 1, 5, 3, 4, 5⟩ false ≠ Value.time ⟨2023, 1, 5, 3, 4, 5⟩ true :=
  ⟨by decide, by decide, by decide⟩

/-! ### Claims C6, C7, C8: failure handling -/

theorem load_data_ok {results : List (Option Table)} {df : Table} {live : Option Table}
    (h : histPart results = .ok df) :
    load_data results live =
      match liveStep df live with
      | some merged => .ok (stringifyObjects merged, histWarns results)
      | none => .ok (stringifyObjects df, histWarns results ++ [.liveFail]) := by
  unfold load_data
  rw [h]

theorem load_data_error {results : List (Option Table)} {live : Option Table} {e : LoadErr}
    (h : histPart results = .error e) : load_data results live = .error e := by
  unfold load_data
  rw [h]

/-- C6: if every historical resource fails to load, the pipeline halts
fatally with the no-data error and no canonical table is produced,
whatever the live feed would have returned. -/
theorem C6_all_sources_fatal (results : List (Option Table)) (live : Option Table)
    (h : ∀ r ∈ results, r = none) : load_data results live = .error .fatalNoData := by
  have hdfs : results.filterMap id = [] := by
    rw [List.filterMap_eq_nil_iff]
    intro a ha
    rw [h a ha]
    rfl
  apply load_data_error
  unfold histPart
  rw [hdfs]
  rfl

/-- C6 witness: the fatal halt on one concrete all-failed source list. -/
theorem C6_all_sources_fatal_witness :
    load_data [none, none] (some [[("X", Value.int 1)]]) = .error .fatalNoData :=
  C6_all_sources_fatal [none, none] (some [[("X", Value.int 1)]]) (by decide)

/-- C7: any failure of the live step (unreachable feed, or a live table
whose normalisation fails, e.g. one missing the expected timestamp
column) is recovered: the pipeline completes with the historical-only
baseline, unchanged, plus a live-failure warning. -/
theorem C7_live_failure_recovered :
    (∀ results df live, histPart results = .ok df → liveStep df live = none →
      load_data results live = .ok (stringifyObjects df, histWarns results ++ [.liveFail])) ∧
    (∀ df : Table, liveStep df none = none) ∧
    (∀ df raw, liveNormalize raw = none → liveStep df (some raw) = none) ∧
    (∀ df raw, hasCol (renameCols raw) "OCCURRED_ON_DATE" = false →
      liveStep df (some raw) = none) := by
  refine ⟨?_, ?_, ?_, ?_⟩
  · intro results df live h1 h2
    rw [load_data_ok h1, h2]
  · intro df
    rfl
  · intro df raw h
    show (do
      let lt ← liveNormalize raw
      mergeLive df lt) = none
    rw [h]
    rfl
  · intro df raw h
    have hfail : applyColReq "OCCURRED_ON_DATE" (pyToDatetimeCell false) (renameCols raw) =
        none := by
      unfold applyColReq
      simp [h]
    show (do
      let lt ← liveNormalize raw
      mergeLive df lt) = none
    unfold liveNormalize
    rw [hfail]
    rfl

/-- C7 witness: a concrete run whose live feed is unreachable completes
with the stringified historical baseline and a live warning. -/
theorem C7_live_failure_recovered_witness :
    load_data [some [[("OCCURRED_ON_DATE", Value.str "2020-01-01 00:00:00+00:00"),
                      ("HOUR", Value.int 2), ("SHOOTING", Value.str "Y")]]] none =
      .ok (stringifyObjects [[("OCCURRED_ON_DATE", Value.time ⟨2020, 1, 1, 0, 0, 0⟩ true),
            ("HOUR", Value.int 2), ("SHOOTING", Value.int 1), ("YEAR", Value.int 2020),
            ("MONTH", Value.int 1)]],
          histWarns [some [[("OCCURRED_ON_DATE", Value.str "2020-01-01 00:00:00+00:00"),
            ("HOUR", Value.int 2), ("SHOOTING", Value.str "Y")]]] ++ [.liveFail]) :=
  C7_live_failure_recovered.1 _ _ none (by rfl) (C7_live_failure_recovered.2.1 _)

/-- C8: a single failed historical source never aborts the run — the
pipeline outcome is the same as without that source except for one extra
source-failure warning in input order, and a successful baseline is
exactly the core normalisation of the renamed successful sources
concatenated in input order. -/
theorem C8_single_source_failure :
    (∀ (as bs : List (Option Table)) (live : Option Table),
      histPart (as ++ none :: bs) = histPart (as ++ bs) ∧
      histWarns (as ++ none :: bs) = histWarns as ++ Warn.sourceFail :: histWarns bs ∧
      resultTable (load_data (as ++ none :: bs) live) =
        resultTable (load_data (as ++ bs) live)) ∧
    (∀ results df, histPart results = .ok df →
      normalizeHistCore (joinTables ((results.filterMap id).map renameCols)) = some df) := by
  constructor
  · intro as bs live
    have hfm : (as ++ none :: bs).filterMap id = (as ++ bs).filterMap id := by
      rw [List.filterMap_append, List.filterMap_cons, List.filterMap_append]
      rfl
    have h1 : histPart (as ++ none :: bs) = histPart (as ++ bs) := by
      unfold histPart
      rw [hfm]
    have h2 : histWarns (as ++ none :: bs) =
        histWarns as ++ Warn.sourceFail :: histWarns bs := by
      unfold histWarns
      rw [List.filterMap_append, List.filterMap_cons]
    refine ⟨h1, h2, ?_⟩
    cases hp : histPart (as ++ bs) with
    | error e => rw [load_data_error (h1.trans hp), load_data_error hp]
    | ok df =>
      rw [load_data_ok (h1.trans hp), load_data_ok hp]
      cases liveStep df live with
      | some merged => rfl
      | none => rfl
  · intro results df h
    unfold histPart at h
    split at h
    · exact absurd h (by simp)
    · split at h
      · rename_i w hw
        rw [hw]
        exact congrArg some (Except.ok.inj h)
      · exact absurd h (by simp)

/-- C8 witness: dropping one failed source from a concrete run leaves
the canonical table unchanged and adds one warning; the one-source
baseline extraction also holds concretely. -/
theorem C8_single_source_failure_witness :
    histPart [some [[("OCCURRED_ON_DATE", Value.null), ("HOUR", Value.null)]], none] =
      histPart [some [[("OCCURRED_ON_DATE", Value.null), ("HOUR", Value.null)]]] ∧
    normalizeHistCore (joinTables
      (([some [[("OCCURRED_ON_DATE", Value.null), ("HOUR", Value.null)]]].filterMap id).map
        renameCols)) =
      some [[("OCCURRED_ON_DATE", Value.null), ("HOUR", Value.null), ("YEAR", Value.null),
             ("MONTH", Value.null), ("SHOOTING", Value.int 0)]] :=
  ⟨((C8_single_source_failure.1 [some [[("OCCURRED_ON_DATE", Value.null),
      ("HOUR", Value.null)]]] [] none).1),
   C8_single_source_failure.2 _ _ (by rfl)⟩

/-! ### Claims C9, C10: the final stringification -/

theorem stringifyObjects_mem {m : Table} {r' : Row} (h : r' ∈ stringifyObjects m) :
    ∃ r ∈ m, r' = stringifyRow (objColumns m) r := by
  unfold stringifyObjects at h
  rw [List.mem_map] at h
  obtain ⟨r, hr, he⟩ := h
  exact ⟨r, hr, he.symm⟩

theorem stringifyRow_get_mem_eq {cols : List String} {r : Row} {k : String} (h : k ∈ cols) :
    rowGet (stringifyRow cols r) k = .str (pyStr (rowGet r k)) := by
  induction cols generalizing r with
  | nil => exact absurd h (List.not_mem_nil k)
  | cons c cs ih =>
    unfold stringifyRow
    rw [List.foldl_cons]
    by_cases hm : k ∈ cs
    · have hih := @ih (rowSet r c (.str (pyStr (rowGet r c)))) hm
      unfold stringifyRow at hih
      rw [hih]
      by_cases hck : c = k
      · subst hck
        rw [rowGet_set_self]
        rfl
      · rw [rowGet_set_ne r hck]
    · have hck : c = k := by
        rcases List.mem_cons.mp h with he | hm2
        · exact he.symm
        · exact absurd hm2 hm
      subst hck
      have hget := @stringifyRow_get_not_mem cs
        (rowSet r c (.str (pyStr (rowGet r c)))) c hm
      unfold stringifyRow at hget
      rw [hget, rowGet_set_self]

theorem objCol_mem_objColumns {m : Table} {k : String} (h : isObjCol m k = true) :
    k ∈ objColumns m := by
  obtain ⟨r, hr, hov⟩ := isObjCol_iff.mp h
  exact List.mem_filter.mpr
    ⟨mem_allKeys_of hr (rowGet_ne_null_rowHas (isObjVal_ne_null hov)), h⟩

theorem stringify_objCol_str {m : Table} {k : String}
    (hobj : isObjCol (stringifyObjects m) k = true) :
    ∀ r ∈ stringifyObjects m, ∃ s, rowGet r k = .str s := by
  intro r hr
  obtain ⟨q, hq, he⟩ := stringifyObjects_mem hr
  by_cases hk : k ∈ objColumns m
  · rw [he, stringifyRow_get_mem_eq hk]
    exact ⟨_, rfl⟩
  · exfalso
    obtain ⟨r'', hr'', hov⟩ := isObjCol_iff.mp hobj
    obtain ⟨q2, hq2, he2⟩ := stringifyObjects_mem hr''
    rw [he2, stringifyRow_get_not_mem hk] at hov
    exact hk (objCol_mem_objColumns (isObjCol_iff.mpr ⟨q2, hq2, hov⟩))

theorem stringify_cell_cases {m : Table} {r' : Row} {k : String}
    (h : r' ∈ stringifyObjects m) :
    (∃ s, rowGet r' k = .str s) ∨ isObjVal (rowGet r' k) = false := by
  obtain ⟨r, hr, he⟩ := stringifyObjects_mem h
  by_cases hk : k ∈ objColumns m
  · left
    rw [he, stringifyRow_get_mem_eq hk]
    exact ⟨_, rfl⟩
  · rw [he, stringifyRow_get_not_mem hk]
    by_cases ho : isObjVal (rowGet r k) = true
    · exact absurd (objCol_mem_objColumns (isObjCol_iff.mpr ⟨r, hr, ho⟩)) hk
    · right
      exact eq_false_of_ne_true ho

theorem load_data_table_shape {results : List (Option Table)} {live : Option Table}
    {t : Table} {w : List Warn} (h : load_data results live = .ok (t, w)) :
    ∃ m, t = stringifyObjects m := by
  cases hp : histPart results with
  | error e => rw [load_data_error hp] at h; exact absurd h (by simp)
  | ok df =>
    rw [load_data_ok hp] at h
    cases hl : liveStep df live with
    | some merged =>
      rw [hl] at h
      have := Except.ok.inj h
      exact ⟨merged, (congrArg Prod.fst this).symm⟩
    | none =>
      rw [hl] at h
      have := Except.ok.inj h
      exact ⟨df, (congrArg Prod.fst this).symm⟩

/-- C9: after the merge every column of the canonical table is
primitive-typed: no cell of the returned table is a non-primitive
object, and every object-dtype (string-bearing) column consists entirely
of strings. -/
theorem C9_primitive_columns (results : List (Option Table)) (live : Option Table)
    (t : Table) (w : List Warn) (h : load_data results live = .ok (t, w)) :
    (∀ r ∈ t, ∀ k os, rowGet r k ≠ Value.obj os) ∧
    (∀ k, isObjCol t k = true → ∀ r ∈ t, ∃ s, rowGet r k = .str s) := by
  obtain ⟨m, hm⟩ := load_data_table_shape h
  subst hm
  constructor
  · intro r hr k os
    rcases @stringify_cell_cases m r k hr with ⟨s, hs⟩ | hno
    · rw [hs]
      intro he
      exact Value.noConfusion he
    · intro he
      rw [he] at hno
      exact absurd hno (by simp [isObjVal])
  · intro k hobj
    exact stringify_objCol_str hobj

/-- C10: the final stringification turns every null of an object-dtype
column into the literal string "nan", and the string-bearing columns of
the returned canonical table contain no nulls — "nan" is the missing
sentinel. -/
theorem C10_null_stringification :
    (∀ (m : Table) k r, r ∈ m → k ∈ objColumns m → rowGet r k = .null →
      rowGet (stringifyRow (objColumns m) r) k = .str "nan") ∧
    (∀ results live t w, load_data results live = .ok (t, w) →
      ∀ k, isObjCol t k = true → ∀ r ∈ t, rowGet r k ≠ .null) := by
  constructor
  · intro m k r hr hk hnull
    rw [stringifyRow_get_mem_eq hk, hnull]
    rfl
  · intro results live t w h k hobj r hr
    obtain ⟨m, hm⟩ := load_data_table_shape h
    subst hm
    obtain ⟨s, hs⟩ := stringify_objCol_str hobj r hr
    rw [hs]
    intro he
    exact Value.noConfusion he

/-- C9 witness: the primitive-typing facts on one concrete run whose
source carried a non-primitive object cell. -/
theorem C9_primitive_columns_witness :
    (∀ r ∈ ([[("OCCURRED_ON_DATE", Value.null), ("HOUR", Value.null), ("D", Value.str "x"),
        ("YEAR", Value.null), ("MONTH", Value.null), ("SHOOTING", Value.int 0)]] : Table),
      ∀ k os, rowGet r k ≠ Value.obj os) ∧
    (∀ k, isObjCol [[("OCCURRED_ON_DATE", Value.null), ("HOUR", Value.null),
        ("D", Value.str "x"), ("YEAR", Value.null), ("MONTH", Value.null),
        ("SHOOTING", Value.int 0)]] k = true →
      ∀ r ∈ ([[("OCCURRED_ON_DATE", Value.null), ("HOUR", Value.null), ("D", Value.str "x"),
          ("YEAR", Value.null), ("MONTH", Value.null), ("SHOOTING", Value.int 0)]] : Table),
        ∃ s, rowGet r k = .str s) :=
  C9_primitive_columns
    [some [[("OCCURRED_ON_DATE", Value.null), ("HOUR", Value.null), ("D", Value.obj "x")]]]
    none _ [.liveFail] (by rfl)

/-- C10 witness: on a concrete two-row table a null cell of an
object-dtype column is stringified to "nan", and string columns of a
concrete run's output contain no nulls. -/
theorem C10_null_stringification_witness :
    rowGet (stringifyRow (objColumns [[("D", Value.str "a")], [("E", Value.int 1)]])
      [("E", Value.int 1)]) "D" = .str "nan" ∧
    (∀ r ∈ ([[("OCCURRED_ON_DATE", Value.null), ("HOUR", Value.null), ("D", Value.str "x"),
        ("YEAR", Value.null), ("MONTH", Value.null), ("SHOOTING", Value.int 0)]] : Table),
      rowGet r "D" ≠ .null) :=
  ⟨C10_null_stringification.1 [[("D", Value.str "a")], [("E", Value.int 1)]] "D"
      [("E", Value.int 1)] (by decide) (by decide) (by decide),
   C10_null_stringification.2
     [some [[("OCCURRED_ON_DATE", Value.null), ("HOUR", Value.null), ("D", Value.obj "x")]]]
     none _ [.liveFail] (by rfl) "D" (by decide)⟩

end BostonCrime
